import Mathlib

/-!
Verification of the MCP automotive playground (stdio JSON-RPC framing,
request dispatch, tool registry and the LLM tool-calling loop).

The development shallowly embeds the Python sources:
  * src/mcp_server.py   (framed transport server side, dispatch loop, tool registry)
  * src/llm_client.py   (framed transport client side, request ids, tool-calling loop)
  * src/services.py     (mock automotive service handlers)

Byte streams are `List Nat` (byte values); JSON values are the inductive
`Json`.  The Python standard library `json` module (json.dumps / json.loads)
is not part of the repository; it is modelled here concretely (`dumpsVal`,
`loads`), faithful to `json.dumps` with its default separators and
`ensure_ascii=True` escaping, restricted to the JSON fragment the system
uses (no floating point numbers).
-/

/-- Modelled from the spec: a JSON value as handled by Python's `json` module
(which is standard-library code, not part of src/).  Numbers are restricted
to integers: every number this system serializes is an int, and floats are
outside the model.  Strings are Lean strings (unicode scalar values).  Objects
are insertion-ordered key/value lists, mirroring Python dicts. -/
inductive Json where
  | null
  | bool (b : Bool)
  | num (n : Int)
  | str (s : String)
  | arr (xs : List Json)
  | obj (kvs : List (String × Json))

/-- Decimal digits of a natural number as ASCII bytes; `go` carries fuel so the
definition is structural (hence kernel-reducible); `natDigits n` supplies
fuel `n`, which is enough since the value shrinks by a factor 10 each step. -/
def natDigitsGo : Nat → Nat → List Nat
  | 0, n => [48 + n % 10]
  | fuel + 1, n => if n < 10 then [48 + n] else natDigitsGo fuel (n / 10) ++ [48 + n % 10]

/-- ASCII decimal representation of a natural number, as `str(n)` produces. -/
def natDigits (n : Nat) : List Nat := natDigitsGo n n

/-- ASCII decimal representation of an integer, as `json.dumps` prints an int. -/
def intBytes (n : Int) : List Nat :=
  if n < 0 then 45 :: natDigits n.natAbs else natDigits n.toNat

/-- The power of ten matching the digit count `natDigitsGo` emits (a proof
device for the digit-reading round trip). -/
def tenPowGo : Nat → Nat → Nat
  | 0, _ => 10
  | fuel + 1, n => if n < 10 then 10 else 10 * tenPowGo fuel (n / 10)

/-- Lowercase hexadecimal digit byte for a value below 16. -/
def hexDigitByte (d : Nat) : Nat := if d < 10 then 48 + d else 87 + d

/-- Four lowercase hex digit bytes of a value below 0x10000, as in a JSON
unicode escape. -/
def hex4 (n : Nat) : List Nat :=
  [hexDigitByte (n / 4096 % 16), hexDigitByte (n / 256 % 16),
   hexDigitByte (n / 16 % 16), hexDigitByte (n % 16)]

/-- Escape one character the way `json.dumps` with `ensure_ascii=True` does:
printable ASCII other than quote and backslash is literal, the seven special
escapes are used where Python uses them, all other characters below 0x10000
become a single unicode escape and characters above become a surrogate pair. -/
def escapeChar (c : Char) : List Nat :=
  if c.toNat = 34 then [92, 34]
  else if c.toNat = 92 then [92, 92]
  else if c.toNat = 8 then [92, 98]
  else if c.toNat = 9 then [92, 116]
  else if c.toNat = 10 then [92, 110]
  else if c.toNat = 12 then [92, 102]
  else if c.toNat = 13 then [92, 114]
  else if c.toNat < 32 then 92 :: 117 :: hex4 c.toNat
  else if c.toNat ≤ 126 then [c.toNat]
  else if c.toNat < 65536 then 92 :: 117 :: hex4 c.toNat
  else 92 :: 117 :: (hex4 (55296 + (c.toNat - 65536) / 1024) ++
       (92 :: 117 :: hex4 (56320 + (c.toNat - 65536) % 1024)))

/-- Escaped bytes of a character list (the inside of a JSON string literal). -/
def escList : List Char → List Nat
  | [] => []
  | c :: cs => escapeChar c ++ escList cs

mutual

/-- Serialization of a JSON value, modelling `json.dumps` with its default
separators (", " between items, ": " after keys) and ASCII-only output. -/
def dumpsVal : Json → List Nat
  | .null => [110, 117, 108, 108]
  | .bool true => [116, 114, 117, 101]
  | .bool false => [102, 97, 108, 115, 101]
  | .num n => intBytes n
  | .str s => 34 :: escList s.data ++ [34]
  | .arr xs => 91 :: dumpsList xs ++ [93]
  | .obj kvs => 123 :: dumpsMembers kvs ++ [125]
termination_by structural j => j

/-- Array elements joined by ", ". -/
def dumpsList : List Json → List Nat
  | [] => []
  | [x] => dumpsVal x
  | x :: y :: ys => dumpsVal x ++ [44, 32] ++ dumpsList (y :: ys)
termination_by structural xs => xs

/-- Object members, each rendered as `"key": value`, joined by ", ". -/
def dumpsMembers : List (String × Json) → List Nat
  | [] => []
  | [(k, v)] => (34 :: escList k.data ++ [34, 58, 32]) ++ dumpsVal v
  | (k, v) :: kv :: kvs =>
    (34 :: escList k.data ++ [34, 58, 32]) ++ dumpsVal v ++ [44, 32] ++ dumpsMembers (kv :: kvs)
termination_by structural kvs => kvs

end

/-- Keys of an object member list. -/
def keysOf (kvs : List (String × Json)) : List String := kvs.map Prod.fst

/-- Boolean test that a key list has no duplicates (Python dicts cannot). -/
def nodupKeys : List String → Bool
  | [] => true
  | k :: ks => !(ks.contains k) && nodupKeys ks

mutual

/-- Well-formedness of a JSON value as an image of a Python object: every
object has pairwise distinct keys (a Python dict cannot hold duplicates). -/
def Json.wf : Json → Bool
  | .null => true
  | .bool _ => true
  | .num _ => true
  | .str _ => true
  | .arr xs => wfList xs
  | .obj kvs => wfMembers kvs && nodupKeys (keysOf kvs)
termination_by structural j => j

/-- Well-formedness of every element of an array. -/
def wfList : List Json → Bool
  | [] => true
  | x :: xs => Json.wf x && wfList xs
termination_by structural xs => xs

/-- Well-formedness of every value of an object. -/
def wfMembers : List (String × Json) → Bool
  | [] => true
  | (_, v) :: kvs => Json.wf v && wfMembers kvs
termination_by structural kvs => kvs

end

/-- Whitespace bytes that the JSON scanner skips. -/
def isWsByte (c : Nat) : Bool := c == 32 || c == 9 || c == 10 || c == 13

/-- Drop leading JSON whitespace. -/
def skipWs : List Nat → List Nat
  | [] => []
  | c :: r => if isWsByte c then skipWs r else c :: r

/-- ASCII decimal digit test. -/
def isDigitByte (c : Nat) : Bool := 48 ≤ c && c ≤ 57

/-- Greedy decimal digit reader with an accumulator. -/
def readDigits : List Nat → Nat → Nat × List Nat
  | c :: r, acc => if isDigitByte c then readDigits r (acc * 10 + (c - 48)) else (acc, c :: r)
  | [], acc => (acc, [])

/-- Hexadecimal digit value of a byte, accepting both letter cases. -/
def hexVal (b : Nat) : Option Nat :=
  if 48 ≤ b ∧ b ≤ 57 then some (b - 48)
  else if 97 ≤ b ∧ b ≤ 102 then some (b - 87)
  else if 65 ≤ b ∧ b ≤ 70 then some (b - 55)
  else none

/-- Prepend one decoded character to the result of a string-body parse. -/
def pcons (n : Nat) : Option (List Char × List Nat) → Option (List Char × List Nat)
  | some (cs, r) => some (Char.ofNat n :: cs, r)
  | none => none

/-- Combine a just-decoded unicode escape value with a following low-surrogate
escape when Python's scanner would: given the decoded value and the bytes after
its escape, return the character value and the bytes to continue from.  A
non-surrogate value, or a high surrogate not followed by a well-formed low
surrogate escape, passes through unchanged. -/
def surrDecode (v : Nat) (r5 : List Nat) : Nat × List Nat :=
  if 55296 ≤ v ∧ v ≤ 56319 then
    match r5 with
    | 92 :: 117 :: e2 :: f2 :: g2 :: h2 :: r6 =>
      (match hexVal e2, hexVal f2, hexVal g2, hexVal h2 with
       | some ve, some vf, some vg, some vh =>
         if 56320 ≤ ve * 4096 + vf * 256 + vg * 16 + vh ∧
            ve * 4096 + vf * 256 + vg * 16 + vh ≤ 57343 then
           (65536 + (v - 55296) * 1024 + (ve * 4096 + vf * 256 + vg * 16 + vh - 56320), r6)
         else (v, r5)
       | _, _, _, _ => (v, r5))
    | _ => (v, r5)
  else (v, r5)

/-- Parse the body of a JSON string literal (after the opening quote) up to and
including the closing quote, modelling Python's string scanner: raw control
characters are rejected, escapes are decoded, and a high-surrogate escape
followed by a low-surrogate escape is combined into one character
(`surrDecode`).  A lone surrogate escape decodes through `Char.ofNat`; such
inputs are never produced by the serializer. -/
def parseStrChars : Nat → List Nat → Option (List Char × List Nat)
  | 0, _ => none
  | _ + 1, [] => none
  | fuel + 1, c :: r =>
    if c = 34 then some ([], r)
    else if c = 92 then
      match r with
      | [] => none
      | e :: r4 =>
        if e = 34 then pcons 34 (parseStrChars fuel r4)
        else if e = 92 then pcons 92 (parseStrChars fuel r4)
        else if e = 47 then pcons 47 (parseStrChars fuel r4)
        else if e = 98 then pcons 8 (parseStrChars fuel r4)
        else if e = 102 then pcons 12 (parseStrChars fuel r4)
        else if e = 110 then pcons 10 (parseStrChars fuel r4)
        else if e = 114 then pcons 13 (parseStrChars fuel r4)
        else if e = 116 then pcons 9 (parseStrChars fuel r4)
        else if e = 117 then
          match r4 with
          | a :: b :: c2 :: d :: r5 =>
            (match hexVal a, hexVal b, hexVal c2, hexVal d with
             | some va, some vb, some vc, some vd =>
               pcons (surrDecode (va * 4096 + vb * 256 + vc * 16 + vd) r5).1
                 (parseStrChars fuel (surrDecode (va * 4096 + vb * 256 + vc * 16 + vd) r5).2)
             | _, _, _, _ => none)
          | _ => none
        else none
    else if c < 32 then none
    else pcons c (parseStrChars fuel r)

/-- Parse an unsigned decimal integer: at least one digit, greedily consumed;
a following `.`, `e` or `E` would start a float, which is outside the model,
so the parse is rejected there (the serializer never produces one). -/
def parseNumTail (s : List Nat) : Option (Nat × List Nat) :=
  match s with
  | c :: r =>
    if isDigitByte c then
      let p := readDigits (c :: r) 0
      match p.2 with
      | d :: _ => if d = 46 || d = 101 || d = 69 then none else some p
      | [] => some p
    else none
  | [] => none

/-- Parse a JSON number (integer fragment): optional minus then digits. -/
def parseNum (s : List Nat) : Option (Int × List Nat) :=
  match s with
  | [] => none
  | c :: r =>
    if c = 45 then
      match parseNumTail r with
      | some (v, rest) => some (-(v : Int), rest)
      | none => none
    else
      match parseNumTail (c :: r) with
      | some (v, rest) => some ((v : Int), rest)
      | none => none

/-- Insert a key into an insertion-ordered dict the way Python does: replace
the value in place when the key exists, otherwise append. -/
def insertPair (acc : List (String × Json)) (k : String) (v : Json) : List (String × Json) :=
  match acc with
  | [] => [(k, v)]
  | (k2, v2) :: t => if k2 = k then (k2, v) :: t else (k2, v2) :: insertPair t k v

/-- Build the dict from parsed members in order (duplicate keys keep the last
value at the first position, exactly as `dict` construction does). -/
def dictOfPairs (pairs : List (String × Json)) : List (String × Json) :=
  pairs.foldl (fun acc kv => insertPair acc kv.1 kv.2) []

mutual

/-- Parse one JSON value, modelling `json.loads`'s recursive scanner.  The
fuel argument only bounds recursion depth; `loads` supplies more than the
input length, which is always sufficient. -/
def parseVal : Nat → List Nat → Option (Json × List Nat)
  | 0, _ => none
  | fuel + 1, s =>
    match skipWs s with
    | [] => none
    | c :: r =>
      if c = 110 then
        match r with
        | 117 :: 108 :: 108 :: r2 => some (.null, r2)
        | _ => none
      else if c = 116 then
        match r with
        | 114 :: 117 :: 101 :: r2 => some (.bool true, r2)
        | _ => none
      else if c = 102 then
        match r with
        | 97 :: 108 :: 115 :: 101 :: r2 => some (.bool false, r2)
        | _ => none
      else if c = 34 then
        match parseStrChars (r.length + 1) r with
        | some (cs, rest) => some (.str ⟨cs⟩, rest)
        | none => none
      else if c = 91 then
        match skipWs r with
        | [] => none
        | c2 :: r2 =>
          if c2 = 93 then some (.arr [], r2)
          else
            match parseElems fuel (c2 :: r2) with
            | some (vs, rest) => some (.arr vs, rest)
            | none => none
      else if c = 123 then
        match skipWs r with
        | [] => none
        | c2 :: r2 =>
          if c2 = 125 then some (.obj [], r2)
          else
            match parseMembers fuel (c2 :: r2) with
            | some (kvs, rest) => some (.obj (dictOfPairs kvs), rest)
            | none => none
      else if c = 45 || isDigitByte c then
        match parseNum (c :: r) with
        | some (n, rest) => some (.num n, rest)
        | none => none
      else none

/-- Parse the elements of a non-empty array up to and including the closing
bracket. -/
def parseElems : Nat → List Nat → Option (List Json × List Nat)
  | 0, _ => none
  | fuel + 1, s =>
    match parseVal fuel s with
    | none => none
    | some (v, r) =>
      match skipWs r with
      | 44 :: r2 =>
        (match parseElems fuel r2 with
         | some (vs, rest) => some (v :: vs, rest)
         | none => none)
      | 93 :: r2 => some ([v], r2)
      | _ => none

/-- Parse the members of a non-empty object up to and including the closing
brace. -/
def parseMembers : Nat → List Nat → Option (List (String × Json) × List Nat)
  | 0, _ => none
  | fuel + 1, s =>
    match skipWs s with
    | 34 :: r =>
      (match parseStrChars (r.length + 1) r with
       | some (kcs, r2) =>
         (match skipWs r2 with
          | 58 :: r3 =>
            (match parseVal fuel r3 with
             | some (v, r4) =>
               (match skipWs r4 with
                | 44 :: r5 =>
                  (match parseMembers fuel r5 with
                   | some (kvs, rest) => some ((⟨kcs⟩, v) :: kvs, rest)
                   | none => none)
                | 125 :: r5 => some ([(⟨kcs⟩, v)], r5)
                | _ => none)
             | none => none)
          | _ => none)
       | none => none)
    | _ => none

end

/-- Parse a complete JSON document, modelling `json.loads`: one value, then
nothing but whitespace to the end. -/
def loads (s : List Nat) : Option Json :=
  match parseVal (s.length + 1) s with
  | some (v, rest) => if skipWs rest = [] then some v else none
  | none => none

/-- Whether the remainder cannot extend a just-parsed number (its first byte
is no digit and none of `.`, `e`, `E`); serialized values inside containers
are always followed by `,`, `]` or `}`, and a whole document by nothing. -/
def numStop : List Nat → Bool
  | [] => true
  | c :: _ => !(isDigitByte c || c == 46 || c == 101 || c == 69)

/-- Whether the first byte (if any) is not a digit. -/
def headNotDigit : List Nat → Bool
  | [] => true
  | c :: _ => !isDigitByte c

mutual

/-- Recursion depth the scanner needs for a value (a proof device bounding
the fuel `parseVal` consumes). -/
def needVal : Json → Nat
  | .null => 1
  | .bool _ => 1
  | .num _ => 1
  | .str _ => 1
  | .arr [] => 1
  | .arr (x :: xs) => needList (x :: xs) + 1
  | .obj [] => 1
  | .obj (kv :: kvs) => needMembers (kv :: kvs) + 1
termination_by structural j => j

/-- Depth needed by `parseElems` for these elements. -/
def needList : List Json → Nat
  | [] => 0
  | x :: xs => needVal x + needList xs + 1
termination_by structural xs => xs

/-- Depth needed by `parseMembers` for these members. -/
def needMembers : List (String × Json) → Nat
  | [] => 0
  | (_, v) :: kvs => needVal v + needMembers kvs + 1
termination_by structural kvs => kvs

end

/-! ## Framed transport (src/llm_client.py `_send`/`_read`, src/mcp_server.py `_send`/`_read_message`)

A frame is `Content-Length: <byte-length>\r\n\r\n` followed by the UTF-8 JSON
body.  Both processes build frames identically (`McpStdioClient._send` and the
server's `_send`). -/

/-- ASCII bytes of `Content-Length: ` (the header prefix both senders write). -/
def clHead : List Nat := [67, 111, 110, 116, 101, 110, 116, 45, 76, 101, 110, 103, 116, 104, 58, 32]

/-- ASCII bytes of `content-length:` (the lowercase pattern both readers match). -/
def clPat : List Nat := [99, 111, 110, 116, 101, 110, 116, 45, 108, 101, 110, 103, 116, 104, 58]

/-- One complete `Content-Length` header line, `Content-Length: <n>\r\n`. -/
def clLine (n : Nat) : List Nat := clHead ++ natDigits n ++ [13, 10]

/-- Header bytes `Content-Length: <n>\r\n\r\n` for a body of `n` bytes. -/
def headerBytes (n : Nat) : List Nat := clHead ++ natDigits n ++ [13, 10, 13, 10]

/-- One frame as `_send` writes it: header then JSON body. -/
def writeFrame (m : Json) : List Nat := headerBytes (dumpsVal m).length ++ dumpsVal m

/-- Concatenated frames for a list of messages (the server's successive
`_send` calls). -/
def sendAll : List Json → List Nat
  | [] => []
  | m :: ms => writeFrame m ++ sendAll ms

/-- Model of `readline()` on a byte stream: the bytes up to and including the
first newline, or everything (possibly nothing) at end of stream. -/
def readLine : List Nat → List Nat × List Nat
  | [] => ([], [])
  | c :: r =>
    if c = 10 then ([10], r)
    else
      let p := readLine r
      (c :: p.1, p.2)

/-- ASCII lowercasing of one byte, as `bytes.lower` does. -/
def lowerByte (b : Nat) : Nat := if 65 ≤ b ∧ b ≤ 90 then b + 32 else b

/-- ASCII lowercasing of a byte string. -/
def lowerBytes (s : List Nat) : List Nat := s.map lowerByte

/-- Whether `s` starts with the byte pattern `p` (`bytes.startswith`). -/
def hasPrefixBytes : List Nat → List Nat → Bool
  | [], _ => true
  | _ :: _, [] => false
  | b :: bs, c :: r => c == b && hasPrefixBytes bs r

/-- Bytes after the first colon, modelling `line.split(b":", 1)[1]`.  Callers
only reach this on lines that match `content-length:`, which contain a colon;
on a colon-free line the model returns `[]`. -/
def afterColon : List Nat → List Nat
  | [] => []
  | c :: r => if c = 58 then r else afterColon r

/-- Whitespace bytes removed by `bytes.strip()`. -/
def isPyWs (c : Nat) : Bool := c == 32 || c == 9 || c == 10 || c == 13 || c == 11 || c == 12

/-- Drop leading `strip` whitespace. -/
def dropWsL : List Nat → List Nat
  | [] => []
  | c :: r => if isPyWs c then dropWsL r else c :: r

/-- Model of `bytes.strip()`: drop whitespace from both ends. -/
def stripBytes (s : List Nat) : List Nat := ((dropWsL s).reverse |> dropWsL).reverse

/-- Model of Python `int()` on a stripped byte string: optional sign then one
or more decimal digits consuming the whole string.  (Underscore digit grouping,
which `int()` also accepts, is not modelled; no header this system writes or
reads uses it.) -/
def parseIntBytes (s : List Nat) : Option Int :=
  match stripBytes s with
  | [] => none
  | c :: r =>
    if c = 45 then
      match r with
      | [] => none
      | d :: _ =>
        if isDigitByte d then
          (let p := readDigits r 0
           if p.2 = [] then some (-(p.1 : Int)) else none)
        else none
    else if c = 43 then
      match r with
      | [] => none
      | d :: _ =>
        if isDigitByte d then
          (let p := readDigits r 0
           if p.2 = [] then some ((p.1 : Int)) else none)
        else none
    else if isDigitByte c then
      (let p := readDigits (c :: r) 0
       if p.2 = [] then some ((p.1 : Int)) else none)
    else none

/-- Model of `stream.read(n)`: at most `n` bytes (fewer only at end of
stream); a negative `n` reads to end of stream, as buffered `read` does. -/
def readBytesN (n : Int) (s : List Nat) : List Nat × List Nat :=
  if n < 0 then (s, []) else (s.take n.toNat, s.drop n.toNat)

/-- A header-line body (the bytes before its terminating newline) that the
reader loops past: it holds no interior newline, is not the body of the blank
line `\r\n`, and does not match `content-length:` after lowercasing. -/
def plainHdr (A : List Nat) : Bool :=
  (!A.contains 10) && (decide (¬(A = [13]))) &&
    (!hasPrefixBytes clPat (lowerBytes (A ++ [10])))

/-- A header section given by its line bodies, each terminated by a newline. -/
def joinHdr : List (List Nat) → List Nat
  | [] => []
  | A :: As => A ++ (10 :: joinHdr As)

/-- Header loop of the client's `McpStdioClient._read`: read lines until the
blank line, remembering the last `Content-Length` value.  Fuel only bounds the
iteration count; callers pass more than the stream length.  Outcomes model the
exceptions `_read` raises: end of stream (empty `readline`) and a blank line
with no `Content-Length` seen are both `RuntimeError`s, and a malformed length
value raises `ValueError` out of `int()`. -/
def clientReadLoop (cl : Option Int) : Nat → List Nat → Except String (Int × List Nat)
  | 0, _ => .error "fuel exhausted"
  | fuel + 1, s =>
    let p := readLine s
    if p.1 = [] then .error "MCP server closed stdout"
    else if p.1 = [13, 10] then
      match cl with
      | none => .error "Invalid MCP frame: missing Content-Length"
      | some n => .ok (n, p.2)
    else if hasPrefixBytes clPat (lowerBytes p.1) then
      match parseIntBytes (afterColon p.1) with
      | some n => clientReadLoop (some n) fuel p.2
      | none => .error "ValueError: invalid literal for int"
    else clientReadLoop cl fuel p.2

/-- The client's `McpStdioClient._read`: header loop, then read exactly
`Content-Length` bytes and parse them as JSON.  Any failure is an exception
(`.error`); the client never has a silent no-message outcome. -/
def clientRead (s : List Nat) : Except String (Json × List Nat) :=
  match clientReadLoop none (s.length + 1) s with
  | .error e => .error e
  | .ok (n, r) =>
    let bp := readBytesN n r
    match loads bp.1 with
    | some j => .ok (j, bp.2)
    | none => .error "json.JSONDecodeError"

/-- Header loop of the server's `_read_message`: same line scan as the client,
but end of stream returns the no-message outcome (`none`) and so does a blank
line with no `Content-Length` seen; only a malformed length value is an
exception. -/
def serverReadLoop (cl : Option Int) : Nat → List Nat → Except String (Option (Int × List Nat))
  | 0, _ => .error "fuel exhausted"
  | fuel + 1, s =>
    let p := readLine s
    if p.1 = [] then .ok none
    else if p.1 = [13, 10] then
      match cl with
      | none => .ok none
      | some n => .ok (some (n, p.2))
    else if hasPrefixBytes clPat (lowerBytes p.1) then
      match parseIntBytes (afterColon p.1) with
      | some n => serverReadLoop (some n) fuel p.2
      | none => .error "ValueError: invalid literal for int"
    else serverReadLoop cl fuel p.2

/-- The server's `_read_message`: header loop, then read the body; an empty
body read (end of stream, or `Content-Length` at most zero) is the no-message
outcome, and a body that is not valid JSON raises out of `json.loads`. -/
def serverReadMessage (s : List Nat) : Except String (Option (Json × List Nat)) :=
  match serverReadLoop none (s.length + 1) s with
  | .error e => .error e
  | .ok none => .ok none
  | .ok (some (n, r)) =>
    let bp := readBytesN n r
    if bp.1 = [] then .ok none
    else
      match loads bp.1 with
      | some j => .ok (some (j, bp.2))
      | none => .error "json.JSONDecodeError"

/-! ## Python-object helpers shared by the server and client models

Exceptions raised by Python attribute/key errors are modelled as `.error`
with an abbreviated message; no theorem relies on the text of these messages
(only `str(exc)` texts the code itself builds, like `Unknown tool: <name>`,
are modelled verbatim). -/

/-- First value bound to a key in an object member list (dict lookup). -/
def lookupPairs : List (String × Json) → String → Option Json
  | [], _ => none
  | (k, v) :: t, key => if k = key then some v else lookupPairs t key

/-- Model of `d.get(key)` returning `None` when `d` is not an object. -/
def Json.lookup : Json → String → Option Json
  | .obj kvs, k => lookupPairs kvs k
  | _, _ => none

/-- Model of `x.get(key, default)`: fails like `AttributeError` when `x` is
not a dict. -/
def pyGetD (x : Json) (k : String) (d : Json) : Except String Json :=
  match x with
  | .obj kvs => .ok ((lookupPairs kvs k).getD d)
  | _ => .error "AttributeError: object has no attribute get"

/-- Model of `x[key]`: `KeyError`/`TypeError` are failures. -/
def pyIndex (x : Json) (k : String) : Except String Json :=
  match x with
  | .obj kvs =>
    (match lookupPairs kvs k with
     | some v => .ok v
     | none => .error "KeyError")
  | _ => .error "TypeError: object is not subscriptable"

/-- Python truthiness of a JSON value (`bool(x)`). -/
def pyTruthy : Json → Bool
  | .null => false
  | .bool b => b
  | .num n => decide (n ≠ 0)
  | .str s =>
    (match s.data with
     | [] => false
     | _ :: _ => true)
  | .arr [] => false
  | .arr (_ :: _) => true
  | .obj [] => false
  | .obj (_ :: _) => true

/-- Decimal string of an integer (`str(n)` for an int). -/
def intStr (n : Int) : String :=
  ⟨(intBytes n).map Char.ofNat⟩

/-- Model of Python `str(x)` as used in f-strings.  Faithful for the values
the theorems touch (strings, `None`, booleans, integers); for lists and dicts
it is an approximation of `repr` that no theorem depends on. -/
def pyStr : Json → String
  | .null => "None"
  | .bool true => "True"
  | .bool false => "False"
  | .num n => intStr n
  | .str s => s
  | .arr _ => "[...]"
  | .obj _ => "(dict)"

/-- String of bytes (ASCII transport text back into a Python `str`). -/
def bytesToStr (l : List Nat) : String := ⟨l.map Char.ofNat⟩

/-- Bytes of a string's characters (exact for the ASCII text this system
produces; `json.loads` on a `str` argument scans characters, which these
code points model). -/
def strToBytes (s : String) : List Nat := s.data.map Char.toNat

/-- Model of `str.startswith` on the underlying characters. -/
def charsHaveStart : List Char → List Char → Bool
  | [], _ => true
  | _ :: _, [] => false
  | p :: ps, c :: cs => c == p && charsHaveStart ps cs

/-! ## Mock services (src/services.py)

Handlers receive the raw JSON argument the dispatcher passes.  Type errors the
Python functions would raise on ill-typed arguments (`AttributeError` on
`.startswith`, `TypeError` on `>` comparison or unhashable keys) are modelled
as failures; the server converts any handler failure into an error response. -/

/-- Model of `services.diagnostics`.  `now` stands for
`datetime.utcnow().isoformat()`, the one non-deterministic input. -/
def svcDiagnostics (now : String) (obd : Json) : Except String Json :=
  match obd with
  | .str code =>
    .ok (.obj [("service", .str "Diagnostics"),
               ("timestamp", .str (now ++ "Z")),
               ("obd_code", .str code),
               ("severity", .str (if charsHaveStart "P03".data code.data then "medium" else "low")),
               ("summary", .str (if code = "P0301" then "Engine misfire detected on cylinder 1"
                                 else "Generic diagnostic result"))])
  | _ => .error "AttributeError: object has no attribute startswith"

/-- Model of `services.navigation` (total: the argument is only embedded). -/
def svcNavigation (dest : Json) : Json :=
  .obj [("service", .str "Navigation"), ("destination", dest),
        ("distance_km", .num 24), ("eta_minutes", .num 38),
        ("route_risk_zone", .str "moderate")]

/-- Model of `services.weather` (total). -/
def svcWeather (region : Json) : Json :=
  .obj [("service", .str "Weather"), ("region", region),
        ("condition", .str "heavy rain"), ("visibility", .str "reduced"),
        ("risk_level", .str "high")]

/-- Model of `services.maintenance`.  Python booleans compare as 0/1 with the
mileage threshold; other non-integer arguments fail on `>`. -/
def svcMaintenance (mileage : Json) : Except String Json :=
  match mileage with
  | .num n =>
    .ok (.obj [("service", .str "Maintenance"), ("mileage", .num n),
               ("overdue_items", .arr (if n > 40000 then [.str "brake fluid", .str "air filter"] else [])),
               ("recommended_window_days", .num (if n > 40000 then 7 else 30))])
  | .bool b =>
    .ok (.obj [("service", .str "Maintenance"), ("mileage", .bool b),
               ("overdue_items", .arr []),
               ("recommended_window_days", .num 30)])
  | _ => .error "TypeError: unsupported operand types for comparison"

/-- Model of `services.emergency` (total: membership in the risk set is
simply false for non-strings). -/
def svcEmergency (risk : Json) : Json :=
  let isHigh : Bool :=
    match risk with
    | .str s => s = "high" || s = "severe"
    | _ => false
  .obj [("service", .str "Emergency"), ("risk_level", risk),
        ("recommendation", .str (if isHigh then "Avoid travel and keep roadside assistance on standby"
                                 else "Drive with caution and monitor conditions"))]

/-- Model of `services.knowledge`; list/dict topics are unhashable and raise
inside `dict.get`. -/
def svcKnowledge (topic : Json) : Except String Json :=
  match topic with
  | .arr _ => .error "TypeError: unhashable type"
  | .obj _ => .error "TypeError: unhashable type"
  | t =>
    let expl : String :=
      match t with
      | .str s =>
        if s = "P0301" then "Misfire in cylinder 1 can impact fuel economy and emissions."
        else if s = "heavy rain" then "Reduced visibility and braking performance increase stopping distance."
        else "General automotive guidance."
      | _ => "General automotive guidance."
    .ok (.obj [("service", .str "Knowledge"), ("topic", t), ("explanation", .str expl)])

/-- Model of `services.vehicle_info` (total). -/
def svcVehicleInfo (vin : Json) : Json :=
  .obj [("service", .str "Vehicle Info"), ("vin", vin),
        ("model", .str "Demo EV Sedan"), ("year", .num 2022), ("mileage", .num 42000)]

/-! ## Tool registry and dispatcher (src/mcp_server.py) -/

/-- Input schema of one tool: an object with a single optional property. -/
def toolSchema (prop : String) (ty : String) : Json :=
  .obj [("type", .str "object"),
        ("properties", .obj [(prop, .obj [("type", .str ty)])]),
        ("required", .arr [])]

/-- The static `TOOLS` table: name, description, input schema. -/
def TOOLS : List (String × String × Json) :=
  [("diagnostics", "Run diagnostics for a given OBD-II trouble code.", toolSchema "obd_code" "string"),
   ("navigation", "Get route guidance for a destination.", toolSchema "destination" "string"),
   ("weather", "Get weather conditions and risk for a region.", toolSchema "route_region" "string"),
   ("maintenance", "Get maintenance recommendations based on mileage.", toolSchema "current_mileage" "integer"),
   ("emergency", "Get emergency driving recommendation for a risk level.", toolSchema "risk_level" "string"),
   ("knowledge", "Get automotive knowledge/explanation for a topic or code.", toolSchema "topic" "string"),
   ("vehicle_info", "Get current vehicle profile details.", toolSchema "vin" "string")]

/-- Registered tool names in table order. -/
def toolNames : List String := TOOLS.map Prod.fst

/-- Wrap a handler result the way `_tool_call` returns it:
`{"content": [{"type": "text", "text": json.dumps(result)}], "isError": False}`. -/
def wrapResult (r : Json) : Json :=
  .obj [("content", .arr [.obj [("type", .str "text"), ("text", .str (bytesToStr (dumpsVal r)))]]),
        ("isError", .bool false)]

/-- Model of `_tool_call(name, arguments)`: match the name against the chain
of registered tools, fetch the tool's argument with its documented default,
run the handler and wrap the result; an unmatched name raises
`ValueError(f"Unknown tool: {name}")`. -/
def toolCall (now : String) (name : Json) (args : Json) : Except String Json :=
  match name with
  | .str s =>
    if s = "diagnostics" then do
      let v ← pyGetD args "obd_code" (.str "P0301")
      let r ← svcDiagnostics now v
      pure (wrapResult r)
    else if s = "navigation" then do
      let v ← pyGetD args "destination" (.str "Office")
      pure (wrapResult (svcNavigation v))
    else if s = "weather" then do
      let v ← pyGetD args "route_region" (.str "city")
      pure (wrapResult (svcWeather v))
    else if s = "maintenance" then do
      let v ← pyGetD args "current_mileage" (.num 42000)
      let r ← svcMaintenance v
      pure (wrapResult r)
    else if s = "emergency" then do
      let v ← pyGetD args "risk_level" (.str "low")
      pure (wrapResult (svcEmergency v))
    else if s = "knowledge" then do
      let v ← pyGetD args "topic" (.str "P0301")
      let r ← svcKnowledge v
      pure (wrapResult r)
    else if s = "vehicle_info" then do
      let v ← pyGetD args "vin" (.str "DEMO-VIN-123")
      pure (wrapResult (svcVehicleInfo v))
    else .error ("Unknown tool: " ++ s)
  | other => .error ("Unknown tool: " ++ pyStr other)

/-! ## Server dispatch (src/mcp_server.py `main`) -/

/-- A response carrying a `result`. -/
def okResp (i : Json) (r : Json) : Json :=
  .obj [("jsonrpc", .str "2.0"), ("id", i), ("result", r)]

/-- A response carrying an `error` with code and message. -/
def errResp (i : Json) (code : Int) (msg : String) : Json :=
  .obj [("jsonrpc", .str "2.0"), ("id", i),
        ("error", .obj [("code", .num code), ("message", .str msg)])]

/-- The `initialize` result payload. -/
def initResultJson : Json :=
  .obj [("protocolVersion", .str "2024-11-05"),
        ("capabilities", .obj [("tools", .obj [])]),
        ("serverInfo", .obj [("name", .str "automotive-playground"), ("version", .str "1.0.0")])]

/-- The `tools/list` result payload built from the `TOOLS` table. -/
def toolsListJson : Json :=
  .obj [("tools", .arr (TOOLS.map (fun t =>
    .obj [("name", .str t.1), ("description", .str t.2.1), ("inputSchema", t.2.2)])))]

/-- The id of a frame as `main` sees it: `request.get("id")` yields Python
`None` both for an absent key and for a JSON `null` value, and responses are
sent only when it is not `None`. -/
def reqId (req : Json) : Option Json :=
  match req.lookup "id" with
  | some .null => none
  | x => x

/-- The arguments passed to `_tool_call`: `params.get("arguments", {}) or {}`,
failing like `params.get` when `params` is not a dict, and replacing any falsy
value (absent key default, `null`, and the other falsy values) with `{}`. -/
def argOrEmpty (params : Json) : Except String Json := do
  let rawArgs ← pyGetD params "arguments" (.obj [])
  pure (if pyTruthy rawArgs then rawArgs else .obj [])

/-- Whether `request.get("method")` equals a given string constant.  A missing
key and a JSON `null` both become Python `None`, which equals no string. -/
def methodIs (m : Option Json) (s : String) : Bool :=
  match m with
  | some (.str t) => t = s
  | _ => false

/-- String interpolation of `request.get("method")` (`None` when absent). -/
def pyStrOpt : Option Json → String
  | none => "None"
  | some j => pyStr j

/-- Responses the server sends while handling one frame (`main`'s loop body).
A non-object frame makes `request.get` raise, which crashes the loop
(`.error`); everything else is total.  Responses are produced only when the
frame carried a non-`None` `id`; `notifications/initialized` never answers;
`tools/call` failures of any kind inside `_tool_call` become a code -32000
error response; an unrecognized method becomes a code -32601 error response. -/
def serverStep (now : String) (req : Json) : Except String (List Json) :=
  match req with
  | .obj kvs =>
    let method := lookupPairs kvs "method"
    let rid : Option Json := reqId (.obj kvs)
    if methodIs method "initialize" then
      .ok (match rid with
           | none => []
           | some i => [okResp i initResultJson])
    else if methodIs method "notifications/initialized" then .ok []
    else if methodIs method "tools/list" then
      .ok (match rid with
           | none => []
           | some i => [okResp i toolsListJson])
    else if methodIs method "tools/call" then
      let params := (lookupPairs kvs "params").getD (.obj [])
      let callRes : Except String Json := do
        let name ← pyGetD params "name" (.str "")
        let args ← argOrEmpty params
        toolCall now name args
      match callRes with
      | .ok result =>
        .ok (match rid with
             | none => []
             | some i => [okResp i result])
      | .error e =>
        .ok (match rid with
             | none => []
             | some i => [errResp i (-32000) e])
    else
      .ok (match rid with
           | none => []
           | some i => [errResp i (-32601) ("Method not found: " ++ pyStrOpt method)])
  | _ => .error "AttributeError: object has no attribute get"

/-- Outputs of a step; a crashed step has written nothing. -/
def stepOuts : Except String (List Json) → List Json
  | .ok l => l
  | .error _ => []

/-- How the server's `while True` loop ends. -/
inductive LoopExit where
  | clean
  | crashed (e : String)

/-- The server's `main` loop over a byte stream: read a message, stop cleanly
on the no-message outcome, dispatch and write the responses, repeat.  An
uncaught exception (unparseable length value, bad JSON body, non-object
frame) crashes the loop.  Fuel only bounds the number of frames processed. -/
def serverLoop (now : String) : Nat → List Nat → List Nat × LoopExit
  | 0, _ => ([], .clean)
  | fuel + 1, s =>
    match serverReadMessage s with
    | .error e => ([], .crashed e)
    | .ok none => ([], .clean)
    | .ok (some (req, rest)) =>
      match serverStep now req with
      | .error e => ([], .crashed e)
      | .ok outs =>
        let p := serverLoop now fuel rest
        (sendAll outs ++ p.1, p.2)

/-! ## Client endpoint (src/llm_client.py `McpStdioClient`)

`__init__` sets `_next_id = 1`.  `request` uses the current counter as the
frame id, increments the counter once, writes the frame and blocks reading one
response frame.  `notify` writes a frame with no id and leaves the counter
alone.  The wire between the processes is abstracted to the server's
per-frame dispatch function: the server is single threaded and replies to each
request frame before reading the next, so on one connection the k-th response
frame read by the client is the server's response to the k-th request frame
(the byte-level faithfulness of that abstraction is exactly the framing
round-trip proved below). -/

/-- Payload built by `request` (with an id) or `notify` (without), preserving
the key insertion order `jsonrpc`, `id`, `method`, `params`. -/
def mkPayload (rid : Option Nat) (method : String) (params : Option Json) : Json :=
  .obj ([("jsonrpc", Json.str "2.0")] ++
        (match rid with
         | some i => [("id", Json.num (i : Int))]
         | none => []) ++
        [("method", Json.str method)] ++
        (match params with
         | some p => [("params", p)]
         | none => []))

/-- One client-side operation on the connection. -/
inductive COp where
  | creq (method : String) (params : Option Json)
  | cnote (method : String) (params : Option Json)

/-- Whether an operation can complete against the server: a `request()` with
method `notifications/initialized` would block forever (the server never
replies to it), every other operation completes. -/
def opOk : COp → Bool
  | .creq m _ => decide (¬(m = "notifications/initialized"))
  | .cnote _ _ => true

/-- Number of `request()` calls in a session (each consumes one id). -/
def countReqs : List COp → Nat
  | [] => 0
  | .creq _ _ :: r => countReqs r + 1
  | .cnote _ _ :: r => countReqs r

/-- Run a sequence of operations starting from request-id counter `nid`.
A `creq` entry records the request payload sent and the response frame the
blocking `_read` returns for it (`none` if the server sends nothing, in which
case the real client would block forever); a `cnote` entry records nothing.
The server answers nothing to id-less frames, so notifications never shift
the response stream. -/
def runOps (now : String) : Nat → List COp → List (Option (Json × Option Json))
  | _, [] => []
  | nid, .creq m p :: rest =>
    let payload := mkPayload (some nid) m p
    some (payload, (stepOuts (serverStep now payload)).head?) :: runOps now (nid + 1) rest
  | nid, .cnote _ _ :: rest => none :: runOps now nid rest

/-- The request/response pairs of a session, in order. -/
def sessionPairs (now : String) (nid : Nat) (ops : List COp) : List (Json × Option Json) :=
  (runOps now nid ops).filterMap id

/-- Whether an operation is a `request()` call with the given method. -/
def isReqWithMethod (op : COp) (m : String) : Bool :=
  match op with
  | .creq m2 _ => m2 = m
  | .cnote _ _ => false

/-! ## Tool-calling loop (src/llm_client.py `run_llm_flow`)

The external chat-completion model is an oracle from the current conversation
to the message object of the first choice of its reply (`response["choices"]
[0]["message"]`); quantifying over oracles quantifies over every model
behavior.  The loop body appends the message, returns its content when it
carries no tool calls, and otherwise parses and dispatches every tool call in
order, appending a tool turn for each.  `client.request` is coupled to the
server dispatch as in the session model above. -/

/-- Sentinel returned when the iteration cap is reached. -/
def sentinelText : String := "Stopped after max tool-call iterations."

/-- Model of `client.request(method, params)` against the coupled server:
send with the current id, read the matching response; a response carrying
`error` raises `RuntimeError` with the remote message, otherwise the `result`
payload is returned along with the advanced id counter.  (For every method
the flow uses the server always answers; the deadlock branch is unreachable.) -/
def clientRequest (now : String) (nid : Nat) (method : String) (params : Option Json) :
    Except String (Json × Nat) :=
  match (stepOuts (serverStep now (mkPayload (some nid) method params))).head? with
  | none => .error "deadlock: request got no response frame"
  | some resp =>
    match resp.lookup "error" with
    | some e =>
      .error (match e with
              | .obj ks => pyStr ((lookupPairs ks "message").getD (.str "Unknown MCP error"))
              | _ => "AttributeError: object has no attribute get")
    | none =>
      match resp.lookup "result" with
      | some r => .ok (r, nid + 1)
      | none => .error "KeyError: result"

/-- Concatenate the `text` of `content` items whose `type` is `"text"`. -/
def gatherText : List Json → String → Except String String
  | [], acc => .ok acc
  | item :: rest, acc =>
    match item with
    | .obj kvs =>
      if methodIs (some ((lookupPairs kvs "type").getD .null)) "text" then
        match (lookupPairs kvs "text").getD (.str "") with
        | .str t => gatherText rest (acc ++ t)
        | _ => .error "TypeError: can only concatenate str"
      else gatherText rest acc
    | _ => .error "AttributeError: object has no attribute get"

/-- Process the tool calls of one model message in order: for each, read
`tc["function"]["name"]`, parse `tc["function"].get("arguments", "\x7b\x7d")`
as JSON (a parse failure aborts the run), dispatch `tools/call`, extract the
text of the result content, and append the tool turn tagged with `tc["id"]`
and the tool name.  Returns the grown conversation and id counter. -/
def doCalls (now : String) : Nat → List Json → List Json → Except String (List Json × Nat)
  | nid, msgs, [] => .ok (msgs, nid)
  | nid, msgs, tc :: rest => do
    let fn ← pyIndex tc "function"
    let nameJ ← pyIndex fn "name"
    let argsJ ← pyGetD fn "arguments" (.str "\x7b\x7d")
    let argStr ←
      match argsJ with
      | .str s => Except.ok s
      | _ => Except.error "TypeError: the JSON object must be str"
    let args ←
      match loads (strToBytes argStr) with
      | some a => Except.ok a
      | none => Except.error "json.JSONDecodeError: Expecting value"
    let pr ← clientRequest now nid "tools/call"
      (some (.obj [("name", nameJ), ("arguments", args)]))
    let content ← pyGetD pr.1 "content" (.arr [])
    let items ←
      match content with
      | .arr l => Except.ok l
      | _ => Except.error "TypeError: object is not iterable"
    let text ← gatherText items ""
    let tcid ← pyIndex tc "id"
    doCalls now pr.2
      (msgs ++ [.obj [("role", .str "tool"), ("tool_call_id", tcid),
                      ("name", nameJ), ("content", .str text)]])
      rest

/-- The `for _ in range(8)` loop of `run_llm_flow`, also counting the
iterations actually executed.  Reaching the cap returns the sentinel string;
uncaught exceptions inside an iteration abort the run. -/
def flowLoop (now : String) (oracle : List Json → Json) :
    List Json → Nat → Nat → Except String Json × Nat
  | _, _, 0 => (.ok (.str sentinelText), 0)
  | msgs, nid, fuel + 1 =>
    let message := oracle msgs
    let msgs2 := msgs ++ [message]
    match pyGetD message "tool_calls" (.arr []) with
    | .error e => (.error e, 1)
    | .ok tcsJ =>
      if pyTruthy tcsJ = false then
        match pyGetD message "content" (.str "") with
        | .error e => (.error e, 1)
        | .ok c => (.ok (if pyTruthy c then c else .str ""), 1)
      else
        match tcsJ with
        | .arr tcs =>
          (match doCalls now nid msgs2 tcs with
           | .error e => (.error e, 1)
           | .ok (msgs3, nid2) =>
             let p := flowLoop now oracle msgs3 nid2 fuel
             (p.1, p.2 + 1))
        | _ => (.error "TypeError: object is not iterable", 1)

/-- A model message carrying one well-formed `vehicle_info` tool call. -/
def toolCallMsg : Json :=
  .obj [("role", .str "assistant"),
        ("tool_calls", .arr [.obj [("id", .str "call-1"),
          ("function", .obj [("name", .str "vehicle_info"),
                             ("arguments", .str "\x7b\x7d")])]])]

/-- A model message whose tool call carries `arguments` that are not valid
JSON text, as the model is free to emit. -/
def badToolMsg : Json :=
  .obj [("role", .str "assistant"),
        ("tool_calls", .arr [.obj [("id", .str "call-1"),
          ("function", .obj [("name", .str "vehicle_info"),
                             ("arguments", .str "oops")])]])]

/-- A sample message used to exercise the framing round trip. -/
def demoMsg : Json :=
  .obj [("a", .num 45000), ("b", .arr [.null, .bool true, .str "x"])]

/-- A sample session: the standard handshake followed by two requests. -/
def demoOps : List COp :=
  [COp.creq "initialize" none,
   COp.cnote "notifications/initialized" none,
   COp.creq "tools/list" none,
   COp.creq "tools/call" (some (.obj [("name", .str "maintenance"),
     ("arguments", .obj [("current_mileage", .num 45000)])]))]

/-- A concrete `tools/call` request naming an unregistered tool. -/
def unkReq : List (String × Json) :=
  [("jsonrpc", .str "2.0"), ("id", .num 3), ("method", .str "tools/call"),
   ("params", .obj [("name", .str "frobnicate")])]

/-- A concrete `tools/call` request for `maintenance` with no `arguments`. -/
def defReq : List (String × Json) :=
  [("jsonrpc", .str "2.0"), ("id", .num 4), ("method", .str "tools/call"),
   ("params", .obj [("name", .str "maintenance")])]

/-! ## Decimal digit lemmas -/

theorem natDigitsGo_all (fuel : Nat) : ∀ n, ∀ b ∈ natDigitsGo fuel n, 48 ≤ b ∧ b ≤ 57 := by
  induction fuel with
  | zero =>
    intro n b hb
    simp only [natDigitsGo, List.mem_singleton] at hb
    omega
  | succ fuel ih =>
    intro n b hb
    simp only [natDigitsGo] at hb
    split at hb
    · simp only [List.mem_singleton] at hb
      omega
    · rcases List.mem_append.mp hb with h | h
      · exact ih _ b h
      · simp only [List.mem_singleton] at h
        omega

theorem natDigits_all (n : Nat) : ∀ b ∈ natDigits n, 48 ≤ b ∧ b ≤ 57 :=
  natDigitsGo_all n n

theorem natDigitsGo_head (fuel : Nat) : ∀ n, ∃ c t, natDigitsGo fuel n = c :: t := by
  induction fuel with
  | zero => intro n; exact ⟨48 + n % 10, [], rfl⟩
  | succ fuel ih =>
    intro n
    simp only [natDigitsGo]
    split
    · exact ⟨48 + n, [], rfl⟩
    · obtain ⟨c, t, h⟩ := ih (n / 10)
      exact ⟨c, t ++ [48 + n % 10], by rw [h]; rfl⟩

theorem natDigits_head (n : Nat) : ∃ c t, natDigits n = c :: t ∧ 48 ≤ c ∧ c ≤ 57 := by
  obtain ⟨c, t, h⟩ := natDigitsGo_head n n
  refine ⟨c, t, h, ?_⟩
  have := natDigits_all n c
  rw [natDigits, h] at this
  exact this (List.mem_cons_self c t)

theorem readDigits_cons_digit (c : Nat) (r : List Nat) (acc : Nat) (h : isDigitByte c = true) :
    readDigits (c :: r) acc = readDigits r (acc * 10 + (c - 48)) := by
  simp [readDigits, h]

theorem readDigits_natDigitsGo (fuel : Nat) :
    ∀ n rest acc, n ≤ fuel →
      readDigits (natDigitsGo fuel n ++ rest) acc = readDigits rest (acc * tenPowGo fuel n + n) := by
  induction fuel with
  | zero =>
    intro n rest acc hn
    have hn0 : n = 0 := Nat.le_zero.mp hn
    subst hn0
    show readDigits (48 :: rest) acc = _
    rw [readDigits_cons_digit _ _ _ (by decide)]
    show _ = readDigits rest (acc * 10 + 0)
    congr 1
  | succ fuel ih =>
    intro n rest acc hn
    by_cases h10 : n < 10
    · simp only [natDigitsGo, if_pos h10, List.cons_append, List.nil_append]
      rw [readDigits_cons_digit _ _ _ (by simp [isDigitByte]; omega)]
      simp only [tenPowGo, if_pos h10]
      congr 1
      omega
    · simp only [natDigitsGo, if_neg h10, List.append_assoc, List.cons_append, List.nil_append]
      rw [ih (n / 10) ((48 + n % 10) :: rest) acc (by omega)]
      rw [readDigits_cons_digit _ _ _ (by simp [isDigitByte]; omega)]
      simp only [tenPowGo, if_neg h10]
      congr 1
      rw [show acc * (10 * tenPowGo fuel (n / 10)) = acc * tenPowGo fuel (n / 10) * 10 from by ring]
      generalize acc * tenPowGo fuel (n / 10) = u
      omega

theorem readDigits_stop (s : List Nat) (acc : Nat) (h : headNotDigit s = true) :
    readDigits s acc = (acc, s) := by
  cases s with
  | nil => rfl
  | cons c r =>
    simp only [headNotDigit, Bool.not_eq_true'] at h
    simp [readDigits, h]

theorem readDigits_natDigits (n : Nat) (rest : List Nat) (h : headNotDigit rest = true) :
    readDigits (natDigits n ++ rest) 0 = (n, rest) := by
  rw [natDigits, readDigits_natDigitsGo n n rest 0 le_rfl, readDigits_stop rest _ h]
  simp

/-! ## Integer parse lemmas -/

theorem numStop_headNotDigit (s : List Nat) (h : numStop s = true) : headNotDigit s = true := by
  cases s with
  | nil => rfl
  | cons c r =>
    simp only [numStop, Bool.not_eq_true', Bool.or_eq_false_iff] at h
    simp [headNotDigit, h.1.1]

theorem parseNumTail_natDigits (m : Nat) (rest : List Nat) (h : numStop rest = true) :
    parseNumTail (natDigits m ++ rest) = some (m, rest) := by
  obtain ⟨c, t, hct, hc1, hc2⟩ := natDigits_head m
  have hread : readDigits (natDigits m ++ rest) 0 = (m, rest) :=
    readDigits_natDigits m rest (numStop_headNotDigit rest h)
  rw [hct] at hread ⊢
  simp only [List.cons_append, parseNumTail]
  have hd : isDigitByte c = true := by simp [isDigitByte]; omega
  rw [if_pos hd]
  simp only [List.cons_append] at hread
  rw [hread]
  cases rest with
  | nil => rfl
  | cons d r2 =>
    simp only [numStop, Bool.not_eq_true', Bool.or_eq_false_iff, beq_eq_false_iff_ne, ne_eq] at h
    obtain ⟨⟨⟨_, h46⟩, h101⟩, h69⟩ := h
    simp [h46, h101, h69]

/-! ## Whitespace and head-byte lemmas -/

theorem skipWs_not_ws (c : Nat) (t : List Nat) (h : isWsByte c = false) :
    skipWs (c :: t) = c :: t := by
  simp [skipWs, h]

theorem skipWs_ws (c : Nat) (t : List Nat) (h : isWsByte c = true) :
    skipWs (c :: t) = skipWs t := by
  simp [skipWs, h]

theorem intBytes_head (n : Int) :
    ∃ c t, intBytes n = c :: t ∧ (c = 45 ∨ (48 ≤ c ∧ c ≤ 57)) := by
  by_cases hneg : n < 0
  · exact ⟨45, natDigits n.natAbs, by rw [intBytes, if_pos hneg], Or.inl rfl⟩
  · obtain ⟨c, t, hct, h1, h2⟩ := natDigits_head n.toNat
    exact ⟨c, t, by rw [intBytes, if_neg hneg, hct], Or.inr ⟨h1, h2⟩⟩

theorem dumpsVal_head (m : Json) :
    ∃ c t, dumpsVal m = c :: t ∧ isWsByte c = false ∧ ¬(c = 93) ∧ ¬(c = 125) := by
  cases m with
  | null => exact ⟨110, _, rfl, by decide, by decide, by decide⟩
  | bool b =>
    cases b with
    | true => exact ⟨116, _, rfl, by decide, by decide, by decide⟩
    | false => exact ⟨102, _, rfl, by decide, by decide, by decide⟩
  | num n =>
    obtain ⟨c, t, hct, hc⟩ := intBytes_head n
    refine ⟨c, t, hct, ?_, ?_, ?_⟩
    · simp [isWsByte]
      omega
    · omega
    · omega
  | str s => exact ⟨34, _, rfl, by decide, by decide, by decide⟩
  | arr xs => exact ⟨91, _, rfl, by decide, by decide, by decide⟩
  | obj kvs => exact ⟨123, _, rfl, by decide, by decide, by decide⟩

theorem needVal_pos (m : Json) : 1 ≤ needVal m := by
  cases m with
  | null => exact le_refl 1
  | bool b => exact le_refl 1
  | num n => exact le_refl 1
  | str s => exact le_refl 1
  | arr xs => cases xs <;> simp [needVal]
  | obj kvs => cases kvs <;> simp [needVal]

theorem dumpsList_head (x : Json) (xs : List Json) :
    ∃ c t, dumpsList (x :: xs) = c :: t ∧ isWsByte c = false ∧ ¬(c = 93) ∧ ¬(c = 125) := by
  obtain ⟨c, t, hct, h1, h2, h3⟩ := dumpsVal_head x
  cases xs with
  | nil => exact ⟨c, t, by rw [dumpsList, hct], h1, h2, h3⟩
  | cons y ys =>
    refine ⟨c, t ++ [44, 32] ++ dumpsList (y :: ys), ?_, h1, h2, h3⟩
    show dumpsVal x ++ [44, 32] ++ dumpsList (y :: ys) = _
    rw [hct]
    simp

/-! ## Insertion-ordered dict lemmas -/

theorem insertPair_append (acc : List (String × Json)) (k : String) (v : Json)
    (h : ∀ p ∈ acc, ¬(p.1 = k)) : insertPair acc k v = acc ++ [(k, v)] := by
  induction acc with
  | nil => rfl
  | cons p t ih =>
    obtain ⟨k2, v2⟩ := p
    have hk2 : ¬(k2 = k) := h (k2, v2) (List.mem_cons_self _ _)
    simp only [insertPair, if_neg hk2, List.cons_append, List.cons.injEq, true_and]
    exact ih (fun p hp => h p (List.mem_cons_of_mem _ hp))

theorem foldl_insertPair (kvs : List (String × Json)) :
    ∀ acc, nodupKeys (keysOf kvs) = true →
      (∀ p ∈ kvs, ∀ q ∈ acc, ¬(q.1 = p.1)) →
      kvs.foldl (fun acc kv => insertPair acc kv.1 kv.2) acc = acc ++ kvs := by
  induction kvs with
  | nil => intro acc _ _; simp
  | cons kv t ih =>
    intro acc hnodup hdisj
    obtain ⟨k, v⟩ := kv
    have hnd : ((keysOf t).contains k) = false ∧ nodupKeys (keysOf t) = true := by
      simp only [keysOf, List.map_cons, nodupKeys, Bool.and_eq_true, Bool.not_eq_true'] at hnodup
      exact ⟨hnodup.1, hnodup.2⟩
    have hknot : ∀ p ∈ t, ¬(p.1 = k) := by
      intro p hp hpk
      have hmem : k ∈ keysOf t := by
        rw [← hpk]
        exact List.mem_map_of_mem Prod.fst hp
      have hnot : k ∉ keysOf t := by simpa using hnd.1
      exact hnot hmem
    simp only [List.foldl_cons]
    rw [insertPair_append acc k v (fun p hp => hdisj (k, v) (List.mem_cons_self _ _) p hp)]
    rw [ih (acc ++ [(k, v)]) hnd.2 ?_]
    · simp
    · intro p hp q hq
      rcases List.mem_append.mp hq with hq | hq
      · exact hdisj p (List.mem_cons_of_mem _ hp) q hq
      · simp only [List.mem_singleton] at hq
        subst hq
        exact fun he => hknot p hp he.symm

theorem dictOfPairs_nodup (kvs : List (String × Json)) (h : nodupKeys (keysOf kvs) = true) :
    dictOfPairs kvs = kvs := by
  unfold dictOfPairs
  have := foldl_insertPair kvs [] h (by intro p _ q hq; cases hq)
  simpa using this

/-! ## Fuel bounds: the scanner depth a value needs is below its printed size -/

mutual

theorem needVal_le (m : Json) : needVal m ≤ (dumpsVal m).length := by
  cases m with
  | null => simp [needVal, dumpsVal]
  | bool b => cases b <;> simp [needVal, dumpsVal]
  | num n =>
    obtain ⟨c, t, hct, _⟩ := intBytes_head n
    simp [needVal, dumpsVal, hct]
  | str s => simp [needVal, dumpsVal]
  | arr xs =>
    cases xs with
    | nil => simp [needVal, dumpsVal, dumpsList]
    | cons x xs =>
      have h := needList_le (x :: xs)
      simp only [needVal, dumpsVal, List.length_cons, List.length_append]
      omega
  | obj kvs =>
    cases kvs with
    | nil => simp [needVal, dumpsVal, dumpsMembers]
    | cons kv kvs =>
      have h := needMembers_le (kv :: kvs)
      simp only [needVal, dumpsVal, List.length_cons, List.length_append]
      omega

theorem needList_le (xs : List Json) : needList xs ≤ (dumpsList xs).length + 1 := by
  cases xs with
  | nil => simp [needList, dumpsList]
  | cons x xs =>
    cases xs with
    | nil =>
      have h := needVal_le x
      simp only [needList, dumpsList, List.length_nil]
      omega
    | cons y ys =>
      have h1 := needVal_le x
      have h2 := needList_le (y :: ys)
      have hdef : needList (y :: ys) = needVal y + needList ys + 1 := rfl
      simp only [needList, dumpsList, List.length_append, List.length_cons, List.length_nil]
      omega

theorem needMembers_le (kvs : List (String × Json)) :
    needMembers kvs ≤ (dumpsMembers kvs).length + 1 := by
  cases kvs with
  | nil => simp [needMembers, dumpsMembers]
  | cons kv kvs =>
    obtain ⟨k, v⟩ := kv
    cases kvs with
    | nil =>
      have h := needVal_le v
      simp only [needMembers, dumpsMembers, List.length_append, List.length_cons]
      omega
    | cons kv2 kvs2 =>
      obtain ⟨k2, v2⟩ := kv2
      have h1 := needVal_le v
      have h2 := needMembers_le ((k2, v2) :: kvs2)
      have hdef : needMembers ((k2, v2) :: kvs2) = needVal v2 + needMembers kvs2 + 1 := rfl
      simp only [needMembers, dumpsMembers, List.length_append, List.length_cons]
      omega

end

/-! ## Whitespace invariance of the scanners -/

theorem parseVal_ws (fuel : Nat) (c : Nat) (s : List Nat) (h : isWsByte c = true) :
    parseVal fuel (c :: s) = parseVal fuel s := by
  cases fuel with
  | zero => rfl
  | succ f =>
    rw [parseVal.eq_def]
    conv_rhs => rw [parseVal.eq_def]
    dsimp only []
    rw [skipWs_ws c s h]

theorem parseElems_ws (fuel : Nat) (c : Nat) (s : List Nat) (h : isWsByte c = true) :
    parseElems fuel (c :: s) = parseElems fuel s := by
  cases fuel with
  | zero => rfl
  | succ f =>
    rw [parseElems.eq_def]
    conv_rhs => rw [parseElems.eq_def]
    dsimp only []
    rw [parseVal_ws f c s h]

theorem parseMembers_ws (fuel : Nat) (c : Nat) (s : List Nat) (h : isWsByte c = true) :
    parseMembers fuel (c :: s) = parseMembers fuel s := by
  cases fuel with
  | zero => rfl
  | succ f =>
    rw [parseMembers.eq_def]
    conv_rhs => rw [parseMembers.eq_def]
    dsimp only []
    rw [skipWs_ws c s h]

/-! ## String escape round-trip lemmas -/

theorem hexVal_hexDigitByte : ∀ d, d < 16 → hexVal (hexDigitByte d) = some d := by decide

theorem escapeChar_len_pos (c : Char) : 1 ≤ (escapeChar c).length := by
  unfold escapeChar
  repeat' split
  all_goals simp only [hex4, List.length_cons, List.length_append, List.length_nil]
  all_goals omega

theorem parseStr_lit_step (f : Nat) (n : Nat) (X : List Nat)
    (h34 : ¬(n = 34)) (h92 : ¬(n = 92)) (h32 : ¬(n < 32)) :
    parseStrChars (f + 1) (n :: X) = pcons n (parseStrChars f X) := by
  rw [parseStrChars.eq_def]
  dsimp only []
  rw [if_neg h34, if_neg h92, if_neg h32]

theorem parseStr_hex_step (f hd1 hd2 hd3 hd4 : Nat) (X : List Nat) :
    parseStrChars (f + 1) (92 :: 117 :: hd1 :: hd2 :: hd3 :: hd4 :: X) =
      (match hexVal hd1, hexVal hd2, hexVal hd3, hexVal hd4 with
       | some va, some vb, some vc, some vd =>
         pcons (surrDecode (va * 4096 + vb * 256 + vc * 16 + vd) X).1
           (parseStrChars f (surrDecode (va * 4096 + vb * 256 + vc * 16 + vd) X).2)
       | _, _, _, _ => none) := rfl

theorem surrDecode_plain (v : Nat) (r5 : List Nat) (h : ¬(55296 ≤ v ∧ v ≤ 56319)) :
    surrDecode v r5 = (v, r5) := by
  unfold surrDecode
  rw [if_neg h]

theorem surrDecode_esc_step (v l1 l2 l3 l4 : Nat) (X : List Nat) :
    surrDecode v (92 :: 117 :: l1 :: l2 :: l3 :: l4 :: X) =
      if 55296 ≤ v ∧ v ≤ 56319 then
        (match hexVal l1, hexVal l2, hexVal l3, hexVal l4 with
         | some ve, some vf, some vg, some vh =>
           if 56320 ≤ ve * 4096 + vf * 256 + vg * 16 + vh ∧
              ve * 4096 + vf * 256 + vg * 16 + vh ≤ 57343 then
             (65536 + (v - 55296) * 1024 + (ve * 4096 + vf * 256 + vg * 16 + vh - 56320), X)
           else (v, 92 :: 117 :: l1 :: l2 :: l3 :: l4 :: X)
         | _, _, _, _ => (v, 92 :: 117 :: l1 :: l2 :: l3 :: l4 :: X))
      else (v, 92 :: 117 :: l1 :: l2 :: l3 :: l4 :: X) := rfl

theorem parseStr_u_step (f : Nat) (n : Nat) (X : List Nat)
    (hlt : n < 65536) (hns : ¬(55296 ≤ n ∧ n ≤ 56319)) :
    parseStrChars (f + 1) (92 :: 117 :: (hex4 n ++ X)) = pcons n (parseStrChars f X) := by
  show parseStrChars (f + 1)
      (92 :: 117 :: hexDigitByte (n / 4096 % 16) :: hexDigitByte (n / 256 % 16) ::
        hexDigitByte (n / 16 % 16) :: hexDigitByte (n % 16) :: X) = _
  rw [parseStr_hex_step]
  rw [hexVal_hexDigitByte (n / 4096 % 16) (by omega), hexVal_hexDigitByte (n / 256 % 16) (by omega),
      hexVal_hexDigitByte (n / 16 % 16) (by omega), hexVal_hexDigitByte (n % 16) (by omega)]
  dsimp only []
  rw [show n / 4096 % 16 * 4096 + n / 256 % 16 * 256 + n / 16 % 16 * 16 + n % 16 = n from by omega]
  rw [surrDecode_plain n X hns]

theorem parseStr_surr_step (f : Nat) (n : Nat) (X : List Nat)
    (h1 : 65536 ≤ n) (h2 : n < 1114112) :
    parseStrChars (f + 1)
      (92 :: 117 :: (hex4 (55296 + (n - 65536) / 1024) ++
        (92 :: 117 :: (hex4 (56320 + (n - 65536) % 1024) ++ X)))) =
      pcons n (parseStrChars f X) := by
  have hsd : surrDecode (55296 + (n - 65536) / 1024)
      (92 :: 117 :: (hex4 (56320 + (n - 65536) % 1024) ++ X)) = (n, X) := by
    show surrDecode (55296 + (n - 65536) / 1024)
        (92 :: 117 :: hexDigitByte ((56320 + (n - 65536) % 1024) / 4096 % 16) ::
          hexDigitByte ((56320 + (n - 65536) % 1024) / 256 % 16) ::
          hexDigitByte ((56320 + (n - 65536) % 1024) / 16 % 16) ::
          hexDigitByte ((56320 + (n - 65536) % 1024) % 16) :: X) = (n, X)
    rw [surrDecode_esc_step]
    rw [if_pos (by omega : 55296 ≤ 55296 + (n - 65536) / 1024 ∧
          55296 + (n - 65536) / 1024 ≤ 56319)]
    rw [hexVal_hexDigitByte _ (by omega), hexVal_hexDigitByte _ (by omega),
        hexVal_hexDigitByte _ (by omega), hexVal_hexDigitByte _ (by omega)]
    dsimp only []
    rw [show (56320 + (n - 65536) % 1024) / 4096 % 16 * 4096 +
          (56320 + (n - 65536) % 1024) / 256 % 16 * 256 +
          (56320 + (n - 65536) % 1024) / 16 % 16 * 16 +
          (56320 + (n - 65536) % 1024) % 16 = 56320 + (n - 65536) % 1024 from by omega]
    rw [if_pos (by omega : 56320 ≤ 56320 + (n - 65536) % 1024 ∧
          56320 + (n - 65536) % 1024 ≤ 57343)]
    rw [show 65536 + (55296 + (n - 65536) / 1024 - 55296) * 1024 +
          (56320 + (n - 65536) % 1024 - 56320) = n from by omega]
  show parseStrChars (f + 1)
      (92 :: 117 :: hexDigitByte ((55296 + (n - 65536) / 1024) / 4096 % 16) ::
        hexDigitByte ((55296 + (n - 65536) / 1024) / 256 % 16) ::
        hexDigitByte ((55296 + (n - 65536) / 1024) / 16 % 16) ::
        hexDigitByte ((55296 + (n - 65536) / 1024) % 16) ::
        (92 :: 117 :: (hex4 (56320 + (n - 65536) % 1024) ++ X))) = _
  rw [parseStr_hex_step]
  rw [hexVal_hexDigitByte _ (by omega), hexVal_hexDigitByte _ (by omega),
      hexVal_hexDigitByte _ (by omega), hexVal_hexDigitByte _ (by omega)]
  dsimp only []
  rw [show (55296 + (n - 65536) / 1024) / 4096 % 16 * 4096 +
        (55296 + (n - 65536) / 1024) / 256 % 16 * 256 +
        (55296 + (n - 65536) / 1024) / 16 % 16 * 16 +
        (55296 + (n - 65536) / 1024) % 16 = 55296 + (n - 65536) / 1024 from by omega]
  rw [hsd]

theorem parseStr_escList (cs : List Char) :
    ∀ rest fuel, (escList cs).length < fuel →
      parseStrChars fuel (escList cs ++ (34 :: rest)) = some (cs, rest) := by
  induction cs with
  | nil =>
    intro rest fuel hf
    have h0 : 0 < fuel := by simpa [escList] using hf
    obtain ⟨f, rfl⟩ : ∃ f, fuel = f + 1 := ⟨fuel - 1, by omega⟩
    rfl
  | cons c cs ih =>
    intro rest fuel hf
    have hlp := escapeChar_len_pos c
    have hlen : (escList (c :: cs)).length = (escapeChar c).length + (escList cs).length := by
      simp [escList]
    obtain ⟨f, rfl⟩ : ∃ f, fuel = f + 1 := ⟨fuel - 1, by omega⟩
    have hih : (escList cs).length < f := by omega
    have heq : escList (c :: cs) ++ (34 :: rest) = escapeChar c ++ (escList cs ++ (34 :: rest)) := by
      simp [escList]
    rw [heq]
    have hval : c.toNat < 55296 ∨ (57343 < c.toNat ∧ c.toNat < 1114112) := by
      rcases c.valid with h | ⟨ha, hb⟩
      · left; exact h
      · right; exact ⟨ha, hb⟩
    by_cases h34 : c.toNat = 34
    · rw [show escapeChar c = [92, 34] from by simp [escapeChar, h34]]
      rw [show ([92, 34] : List Nat) ++ (escList cs ++ (34 :: rest)) =
            92 :: 34 :: (escList cs ++ (34 :: rest)) from rfl]
      rw [show ∀ X, parseStrChars (f + 1) (92 :: 34 :: X) = pcons 34 (parseStrChars f X)
            from fun X => rfl]
      rw [ih rest f hih]
      show some (Char.ofNat 34 :: cs, rest) = _
      rw [← h34, Char.ofNat_toNat]
    · by_cases h92 : c.toNat = 92
      · rw [show escapeChar c = [92, 92] from by simp [escapeChar, h34, h92]]
        rw [show ([92, 92] : List Nat) ++ (escList cs ++ (34 :: rest)) =
              92 :: 92 :: (escList cs ++ (34 :: rest)) from rfl]
        rw [show ∀ X, parseStrChars (f + 1) (92 :: 92 :: X) = pcons 92 (parseStrChars f X)
              from fun X => rfl]
        rw [ih rest f hih]
        show some (Char.ofNat 92 :: cs, rest) = _
        rw [← h92, Char.ofNat_toNat]
      · by_cases h8 : c.toNat = 8
        · rw [show escapeChar c = [92, 98] from by simp [escapeChar, h34, h92, h8]]
          rw [show ([92, 98] : List Nat) ++ (escList cs ++ (34 :: rest)) =
                92 :: 98 :: (escList cs ++ (34 :: rest)) from rfl]
          rw [show ∀ X, parseStrChars (f + 1) (92 :: 98 :: X) = pcons 8 (parseStrChars f X)
                from fun X => rfl]
          rw [ih rest f hih]
          show some (Char.ofNat 8 :: cs, rest) = _
          rw [← h8, Char.ofNat_toNat]
        · by_cases h9 : c.toNat = 9
          · rw [show escapeChar c = [92, 116] from by simp [escapeChar, h34, h92, h8, h9]]
            rw [show ([92, 116] : List Nat) ++ (escList cs ++ (34 :: rest)) =
                  92 :: 116 :: (escList cs ++ (34 :: rest)) from rfl]
            rw [show ∀ X, parseStrChars (f + 1) (92 :: 116 :: X) = pcons 9 (parseStrChars f X)
                  from fun X => rfl]
            rw [ih rest f hih]
            show some (Char.ofNat 9 :: cs, rest) = _
            rw [← h9, Char.ofNat_toNat]
          · by_cases h10 : c.toNat = 10
            · rw [show escapeChar c = [92, 110] from by simp [escapeChar, h34, h92, h8, h9, h10]]
              rw [show ([92, 110] : List Nat) ++ (escList cs ++ (34 :: rest)) =
                    92 :: 110 :: (escList cs ++ (34 :: rest)) from rfl]
              rw [show ∀ X, parseStrChars (f + 1) (92 :: 110 :: X) = pcons 10 (parseStrChars f X)
                    from fun X => rfl]
              rw [ih rest f hih]
              show some (Char.ofNat 10 :: cs, rest) = _
              rw [← h10, Char.ofNat_toNat]
            · by_cases h12 : c.toNat = 12
              · rw [show escapeChar c = [92, 102] from by
                      simp [escapeChar, h34, h92, h8, h9, h10, h12]]
                rw [show ([92, 102] : List Nat) ++ (escList cs ++ (34 :: rest)) =
                      92 :: 102 :: (escList cs ++ (34 :: rest)) from rfl]
                rw [show ∀ X, parseStrChars (f + 1) (92 :: 102 :: X) = pcons 12 (parseStrChars f X)
                      from fun X => rfl]
                rw [ih rest f hih]
                show some (Char.ofNat 12 :: cs, rest) = _
                rw [← h12, Char.ofNat_toNat]
              · by_cases h13 : c.toNat = 13
                · rw [show escapeChar c = [92, 114] from by
                        simp [escapeChar, h34, h92, h8, h9, h10, h12, h13]]
                  rw [show ([92, 114] : List Nat) ++ (escList cs ++ (34 :: rest)) =
                        92 :: 114 :: (escList cs ++ (34 :: rest)) from rfl]
                  rw [show ∀ X, parseStrChars (f + 1) (92 :: 114 :: X) =
                        pcons 13 (parseStrChars f X) from fun X => rfl]
                  rw [ih rest f hih]
                  show some (Char.ofNat 13 :: cs, rest) = _
                  rw [← h13, Char.ofNat_toNat]
                · by_cases h32 : c.toNat < 32
                  · rw [show escapeChar c = 92 :: 117 :: hex4 c.toNat from by
                          simp [escapeChar, h34, h92, h8, h9, h10, h12, h13, h32]]
                    rw [show (92 :: 117 :: hex4 c.toNat) ++ (escList cs ++ (34 :: rest)) =
                          92 :: 117 :: (hex4 c.toNat ++ (escList cs ++ (34 :: rest))) from by simp]
                    rw [parseStr_u_step f c.toNat _ (by omega) (by omega)]
                    rw [ih rest f hih]
                    show some (Char.ofNat c.toNat :: cs, rest) = _
                    rw [Char.ofNat_toNat]
                  · by_cases h126 : c.toNat ≤ 126
                    · rw [show escapeChar c = [c.toNat] from by
                            simp [escapeChar, h34, h92, h8, h9, h10, h12, h13, h32, h126]]
                      rw [show ([c.toNat] : List Nat) ++ (escList cs ++ (34 :: rest)) =
                            c.toNat :: (escList cs ++ (34 :: rest)) from rfl]
                      rw [parseStr_lit_step f c.toNat _ h34 h92 h32]
                      rw [ih rest f hih]
                      show some (Char.ofNat c.toNat :: cs, rest) = _
                      rw [Char.ofNat_toNat]
                    · by_cases h65536 : c.toNat < 65536
                      · rw [show escapeChar c = 92 :: 117 :: hex4 c.toNat from by
                              simp [escapeChar, h34, h92, h8, h9, h10, h12, h13, h32, h126, h65536]]
                        rw [show (92 :: 117 :: hex4 c.toNat) ++ (escList cs ++ (34 :: rest)) =
                              92 :: 117 :: (hex4 c.toNat ++ (escList cs ++ (34 :: rest)))
                              from by simp]
                        rw [parseStr_u_step f c.toNat _ h65536 (by omega)]
                        rw [ih rest f hih]
                        show some (Char.ofNat c.toNat :: cs, rest) = _
                        rw [Char.ofNat_toNat]
                      · rw [show escapeChar c =
                              92 :: 117 :: (hex4 (55296 + (c.toNat - 65536) / 1024) ++
                                (92 :: 117 :: hex4 (56320 + (c.toNat - 65536) % 1024))) from by
                              simp [escapeChar, h34, h92, h8, h9, h10, h12, h13, h32, h126, h65536]]
                        rw [show (92 :: 117 :: (hex4 (55296 + (c.toNat - 65536) / 1024) ++
                              (92 :: 117 :: hex4 (56320 + (c.toNat - 65536) % 1024)))) ++
                              (escList cs ++ (34 :: rest)) =
                              92 :: 117 :: (hex4 (55296 + (c.toNat - 65536) / 1024) ++
                                (92 :: 117 :: (hex4 (56320 + (c.toNat - 65536) % 1024) ++
                                  (escList cs ++ (34 :: rest))))) from by simp]
                        rw [parseStr_surr_step f c.toNat _ (by omega) (by omega)]
                        rw [ih rest f hih]
                        show some (Char.ofNat c.toNat :: cs, rest) = _
                        rw [Char.ofNat_toNat]

theorem parseNum_intBytes (n : Int) (rest : List Nat) (h : numStop rest = true) :
    parseNum (intBytes n ++ rest) = some (n, rest) := by
  by_cases hneg : n < 0
  · rw [intBytes, if_pos hneg, List.cons_append]
    have e1 : parseNum (45 :: (natDigits n.natAbs ++ rest)) =
        match parseNumTail (natDigits n.natAbs ++ rest) with
        | some (v, r2) => some (-(v : Int), r2)
        | none => none := by
      simp [parseNum]
    rw [e1, parseNumTail_natDigits n.natAbs rest h]
    show some (-(n.natAbs : Int), rest) = some (n, rest)
    have e2 : -((n.natAbs : Int)) = n := by omega
    rw [e2]
  · rw [intBytes, if_neg hneg]
    obtain ⟨c, t, hct, hc1, hc2⟩ := natDigits_head n.toNat
    rw [hct, List.cons_append]
    have e1 : parseNum (c :: (t ++ rest)) =
        match parseNumTail (c :: (t ++ rest)) with
        | some (v, r2) => some ((v : Int), r2)
        | none => none := by
      simp [parseNum, show ¬(c = 45) from by omega]
    rw [e1, ← List.cons_append, ← hct, parseNumTail_natDigits n.toNat rest h]
    show some ((n.toNat : Int), rest) = some (n, rest)
    have e2 : ((n.toNat : Int)) = n := by omega
    rw [e2]

/-! ## Serializer/scanner round trip -/

theorem dumpsMembers_one (kv : String × Json) :
    dumpsMembers [kv] = (34 :: escList kv.1.data ++ [34, 58, 32]) ++ dumpsVal kv.2 := by
  obtain ⟨k, v⟩ := kv
  rfl

theorem dumpsMembers_more (kv kv2 : String × Json) (kvs2 : List (String × Json)) :
    dumpsMembers (kv :: kv2 :: kvs2) =
      (34 :: escList kv.1.data ++ [34, 58, 32]) ++ dumpsVal kv.2 ++ [44, 32] ++
        dumpsMembers (kv2 :: kvs2) := by
  obtain ⟨k, v⟩ := kv
  rfl

theorem needMembers_cons (kv : String × Json) (kvs : List (String × Json)) :
    needMembers (kv :: kvs) = needVal kv.2 + needMembers kvs + 1 := by
  obtain ⟨k, v⟩ := kv
  rfl

theorem wfMembers_cons (kv : String × Json) (kvs : List (String × Json)) :
    wfMembers (kv :: kvs) = (Json.wf kv.2 && wfMembers kvs) := by
  obtain ⟨k, v⟩ := kv
  rfl

mutual

theorem parseVal_dumps (m : Json) (hwf : m.wf = true) (rest : List Nat) (fuel : Nat)
    (hstop : numStop rest = true) (hfuel : needVal m ≤ fuel) :
    parseVal fuel (dumpsVal m ++ rest) = some (m, rest) := by
  obtain ⟨f, rfl⟩ : ∃ f, fuel = f + 1 := ⟨fuel - 1, by have := needVal_pos m; omega⟩
  cases m with
  | null => rfl
  | bool b => cases b <;> rfl
  | num n =>
    obtain ⟨c, t, hct, hc⟩ := intBytes_head n
    have hcb : 45 ≤ c ∧ c ≤ 57 := by rcases hc with h | h <;> omega
    show parseVal (f + 1) (intBytes n ++ rest) = _
    rw [parseVal.eq_def]
    dsimp only []
    rw [hct, List.cons_append, skipWs_not_ws c _ (by simp [isWsByte]; omega)]
    dsimp only []
    rw [if_neg (by omega), if_neg (by omega), if_neg (by omega), if_neg (by omega),
        if_neg (by omega), if_neg (by omega)]
    rw [if_pos (by
      rcases hc with h | h
      · simp [h]
      · simp [isDigitByte]; omega)]
    rw [← List.cons_append, ← hct, parseNum_intBytes n rest hstop]
  | str s =>
    show parseVal (f + 1) ((34 :: escList s.data ++ [34]) ++ rest) = _
    rw [parseVal.eq_def]
    dsimp only []
    rw [show ((34 :: escList s.data ++ [34]) ++ rest : List Nat) =
          34 :: (escList s.data ++ (34 :: rest)) from by simp]
    rw [skipWs_not_ws 34 _ (by decide)]
    dsimp only []
    rw [if_neg (by decide), if_neg (by decide), if_neg (by decide), if_pos rfl]
    rw [parseStr_escList s.data rest _ (by simp [List.length_append]; omega)]
  | arr xs =>
    cases xs with
    | nil => rfl
    | cons x xs =>
      have hwf2 : wfList (x :: xs) = true := by simpa [Json.wf] using hwf
      show parseVal (f + 1) ((91 :: dumpsList (x :: xs) ++ [93]) ++ rest) = _
      rw [parseVal.eq_def]
      dsimp only []
      rw [show ((91 :: dumpsList (x :: xs) ++ [93]) ++ rest : List Nat) =
            91 :: (dumpsList (x :: xs) ++ (93 :: rest)) from by simp]
      rw [skipWs_not_ws 91 _ (by decide)]
      dsimp only []
      rw [if_neg (by decide), if_neg (by decide), if_neg (by decide), if_neg (by decide),
          if_pos rfl]
      obtain ⟨c, t, hct, hws, h93, _⟩ := dumpsList_head x xs
      rw [hct, List.cons_append, skipWs_not_ws c _ hws]
      dsimp only []
      rw [if_neg h93]
      rw [← List.cons_append, ← hct]
      rw [parseElems_dumps x xs hwf2 rest f (by
        have : needVal (Json.arr (x :: xs)) = needList (x :: xs) + 1 := rfl
        omega)]
  | obj kvs =>
    cases kvs with
    | nil => rfl
    | cons kv kvs =>
      have hwf2 : wfMembers (kv :: kvs) = true ∧ nodupKeys (keysOf (kv :: kvs)) = true := by
        simpa [Json.wf, Bool.and_eq_true] using hwf
      show parseVal (f + 1) ((123 :: dumpsMembers (kv :: kvs) ++ [125]) ++ rest) = _
      rw [parseVal.eq_def]
      dsimp only []
      rw [show ((123 :: dumpsMembers (kv :: kvs) ++ [125]) ++ rest : List Nat) =
            123 :: (dumpsMembers (kv :: kvs) ++ (125 :: rest)) from by simp]
      rw [skipWs_not_ws 123 _ (by decide)]
      dsimp only []
      rw [if_neg (by decide), if_neg (by decide), if_neg (by decide), if_neg (by decide),
          if_neg (by decide), if_pos rfl]
      have hmh : ∃ t, dumpsMembers (kv :: kvs) = 34 :: t := by
        obtain ⟨k, v⟩ := kv
        cases kvs <;> exact ⟨_, rfl⟩
      obtain ⟨t, hmt⟩ := hmh
      rw [hmt, List.cons_append, skipWs_not_ws 34 _ (by decide)]
      dsimp only []
      rw [if_neg (by decide)]
      rw [← List.cons_append, ← hmt]
      rw [parseMembers_dumps kv kvs hwf2.1 rest f (by
        have : needVal (Json.obj (kv :: kvs)) = needMembers (kv :: kvs) + 1 := by
          obtain ⟨k, v⟩ := kv
          rfl
        omega)]
      dsimp only []
      rw [dictOfPairs_nodup _ hwf2.2]
termination_by sizeOf m

theorem parseElems_dumps (x : Json) (xs : List Json) (hwf : wfList (x :: xs) = true)
    (rest : List Nat) (fuel : Nat) (hfuel : needList (x :: xs) ≤ fuel) :
    parseElems fuel (dumpsList (x :: xs) ++ (93 :: rest)) = some (x :: xs, rest) := by
  have hneed : needList (x :: xs) = needVal x + needList xs + 1 := rfl
  obtain ⟨f, rfl⟩ : ∃ f, fuel = f + 1 := ⟨fuel - 1, by omega⟩
  have hwf2 : Json.wf x = true ∧ wfList xs = true := by
    simpa [wfList, Bool.and_eq_true] using hwf
  cases xs with
  | nil =>
    show parseElems (f + 1) (dumpsVal x ++ (93 :: rest)) = _
    rw [parseElems.eq_def]
    dsimp only []
    rw [parseVal_dumps x hwf2.1 (93 :: rest) f rfl (by
      have : needList [x] = needVal x + needList [] + 1 := rfl
      have : needList ([] : List Json) = 0 := rfl
      omega)]
    dsimp only []
    rw [skipWs_not_ws 93 rest (by decide)]
  | cons y ys =>
    show parseElems (f + 1)
        ((dumpsVal x ++ [44, 32] ++ dumpsList (y :: ys)) ++ (93 :: rest)) = _
    rw [parseElems.eq_def]
    dsimp only []
    rw [show ((dumpsVal x ++ [44, 32] ++ dumpsList (y :: ys)) ++ (93 :: rest) : List Nat) =
          dumpsVal x ++ (44 :: 32 :: (dumpsList (y :: ys) ++ (93 :: rest))) from by simp]
    rw [parseVal_dumps x hwf2.1 (44 :: 32 :: (dumpsList (y :: ys) ++ (93 :: rest))) f rfl (by
      have : needList (y :: ys) = needVal y + needList ys + 1 := rfl
      omega)]
    dsimp only []
    rw [skipWs_not_ws 44 _ (by decide)]
    dsimp only []
    rw [parseElems_ws f 32 _ (by decide)]
    rw [parseElems_dumps y ys hwf2.2 rest f (by
      have : needList (y :: ys) = needVal y + needList ys + 1 := rfl
      omega)]
termination_by sizeOf (x :: xs)

theorem parseMembers_dumps (kv : String × Json) (kvs : List (String × Json))
    (hwf : wfMembers (kv :: kvs) = true) (rest : List Nat) (fuel : Nat)
    (hfuel : needMembers (kv :: kvs) ≤ fuel) :
    parseMembers fuel (dumpsMembers (kv :: kvs) ++ (125 :: rest)) = some (kv :: kvs, rest) := by
  have hneed : needMembers (kv :: kvs) = needVal kv.2 + needMembers kvs + 1 :=
    needMembers_cons kv kvs
  obtain ⟨f, rfl⟩ : ∃ f, fuel = f + 1 := ⟨fuel - 1, by omega⟩
  have hwf2 : Json.wf kv.2 = true ∧ wfMembers kvs = true := by
    have := wfMembers_cons kv kvs
    rw [this] at hwf
    simpa [Bool.and_eq_true] using hwf
  cases kvs with
  | nil =>
    rw [dumpsMembers_one kv]
    rw [parseMembers.eq_def]
    dsimp only []
    rw [show (((34 :: escList kv.1.data ++ [34, 58, 32]) ++ dumpsVal kv.2) ++
          (125 :: rest) : List Nat) =
          34 :: (escList kv.1.data ++ (34 :: (58 :: 32 :: (dumpsVal kv.2 ++ (125 :: rest)))))
          from by simp]
    rw [skipWs_not_ws 34 _ (by decide)]
    dsimp only []
    rw [parseStr_escList kv.1.data _ _ (by simp [List.length_append]; omega)]
    dsimp only []
    rw [skipWs_not_ws 58 _ (by decide)]
    dsimp only []
    rw [parseVal_ws f 32 _ (by decide)]
    rw [parseVal_dumps kv.2 hwf2.1 (125 :: rest) f rfl (by omega)]
    dsimp only []
    rw [skipWs_not_ws 125 rest (by decide)]
  | cons kv2 kvs2 =>
    rw [dumpsMembers_more kv kv2 kvs2]
    rw [parseMembers.eq_def]
    dsimp only []
    rw [show (((34 :: escList kv.1.data ++ [34, 58, 32]) ++ dumpsVal kv.2 ++ [44, 32] ++
          dumpsMembers (kv2 :: kvs2)) ++ (125 :: rest) : List Nat) =
          34 :: (escList kv.1.data ++ (34 :: (58 :: 32 :: (dumpsVal kv.2 ++
            (44 :: 32 :: (dumpsMembers (kv2 :: kvs2) ++ (125 :: rest)))))))
          from by simp]
    rw [skipWs_not_ws 34 _ (by decide)]
    dsimp only []
    rw [parseStr_escList kv.1.data _ _ (by simp [List.length_append]; omega)]
    dsimp only []
    rw [skipWs_not_ws 58 _ (by decide)]
    dsimp only []
    rw [parseVal_ws f 32 _ (by decide)]
    rw [parseVal_dumps kv.2 hwf2.1
        (44 :: 32 :: (dumpsMembers (kv2 :: kvs2) ++ (125 :: rest))) f rfl (by
      have h2 : needMembers (kv2 :: kvs2) = needVal kv2.2 + needMembers kvs2 + 1 :=
        needMembers_cons kv2 kvs2
      have := needVal_pos kv2.2
      omega)]
    dsimp only []
    rw [skipWs_not_ws 44 _ (by decide)]
    dsimp only []
    rw [parseMembers_ws f 32 _ (by decide)]
    rw [parseMembers_dumps kv2 kvs2 hwf2.2 rest f (by
      have h2 : needMembers (kv2 :: kvs2) = needVal kv2.2 + needMembers kvs2 + 1 :=
        needMembers_cons kv2 kvs2
      omega)]
termination_by sizeOf (kv :: kvs)
decreasing_by
  · simp_wf
    obtain ⟨a, b⟩ := kv
    simp
    omega
  · simp_wf
    obtain ⟨a, b⟩ := kv
    simp
    omega
  · decreasing_tactic

end

/-- Round trip of the modelled `json` codec: parsing the serialization of a
well-formed value yields the value back, with any suffix untouched. -/
theorem loads_dumps (m : Json) (hwf : m.wf = true) : loads (dumpsVal m) = some m := by
  unfold loads
  have hb := needVal_le m
  have h := parseVal_dumps m hwf [] ((dumpsVal m).length + 1) rfl (by omega)
  rw [List.append_nil] at h
  rw [h]
  rfl

/-! ## Framing lemmas: header lines, length value, frame round trip -/

theorem readLine_append (A : List Nat) (r : List Nat) (h : ∀ b ∈ A, ¬(b = 10)) :
    readLine (A ++ (10 :: r)) = (A ++ [10], r) := by
  induction A with
  | nil => simp [readLine]
  | cons c t ih =>
    have hc : ¬(c = 10) := h c (List.mem_cons_self _ _)
    simp only [List.cons_append, readLine, if_neg hc, List.append_eq]
    rw [ih (fun b hb => h b (List.mem_cons_of_mem _ hb))]

theorem clLine_eq (n : Nat) : clLine n = clHead ++ (natDigits n ++ [13, 10]) := by
  simp [clLine]

theorem readLine_clLine (n : Nat) (X : List Nat) :
    readLine (clLine n ++ X) = (clLine n, X) := by
  have h1 : clLine n ++ X = (clHead ++ natDigits n ++ [13]) ++ (10 :: X) := by
    simp [clLine]
  rw [h1, readLine_append _ X ?hnl]
  case hnl =>
    intro b hb
    simp only [List.append_assoc, List.mem_append, List.mem_singleton] at hb
    rcases hb with hb | hb | hb
    · revert hb
      revert b
      decide
    · have := natDigits_all n b hb
      omega
    · omega
  · simp [clLine]

theorem hasPrefixBytes_refl_append (p t : List Nat) : hasPrefixBytes p (p ++ t) = true := by
  induction p with
  | nil => rfl
  | cons b bs ih => simp [hasPrefixBytes, ih]

theorem lowerBytes_clLine (n : Nat) :
    lowerBytes (clLine n) = clPat ++ (32 :: lowerBytes (natDigits n ++ [13, 10])) := by
  rw [clLine_eq]
  show List.map lowerByte (clHead ++ (natDigits n ++ [13, 10])) = _
  rw [List.map_append]
  rw [show List.map lowerByte clHead = clPat ++ [32] from rfl]
  simp [lowerBytes]

theorem clLine_is_cl (n : Nat) : hasPrefixBytes clPat (lowerBytes (clLine n)) = true := by
  rw [lowerBytes_clLine]
  exact hasPrefixBytes_refl_append _ _

theorem afterColon_clHead (Y : List Nat) : afterColon (clHead ++ Y) = 32 :: Y := rfl

theorem dropWsL_ws (c : Nat) (t : List Nat) (h : isPyWs c = true) :
    dropWsL (c :: t) = dropWsL t := by
  simp [dropWsL, h]

theorem dropWsL_not (c : Nat) (t : List Nat) (h : isPyWs c = false) :
    dropWsL (c :: t) = c :: t := by
  simp [dropWsL, h]

theorem dropWsL_digits (s : List Nat) (h : ∀ b ∈ s, 48 ≤ b ∧ b ≤ 57) : dropWsL s = s := by
  cases s with
  | nil => rfl
  | cons c t =>
    have := h c (List.mem_cons_self _ _)
    exact dropWsL_not c t (by simp [isPyWs]; omega)

theorem stripBytes_num (n : Nat) :
    stripBytes (32 :: (natDigits n ++ [13, 10])) = natDigits n := by
  unfold stripBytes
  rw [dropWsL_ws 32 _ (by decide)]
  obtain ⟨c, t, hct, hc1, hc2⟩ := natDigits_head n
  rw [hct, List.cons_append, dropWsL_not c _ (by simp [isPyWs]; omega), ← List.cons_append, ← hct]
  have hrev : (natDigits n ++ [13, 10]).reverse = 10 :: 13 :: (natDigits n).reverse := by
    simp
  rw [hrev]
  rw [dropWsL_ws 10 _ (by decide), dropWsL_ws 13 _ (by decide)]
  rw [dropWsL_digits _ (fun b hb => natDigits_all n b (List.mem_reverse.mp hb))]
  simp

theorem parseIntBytes_num (n : Nat) :
    parseIntBytes (32 :: (natDigits n ++ [13, 10])) = some (n : Int) := by
  unfold parseIntBytes
  rw [stripBytes_num n]
  obtain ⟨c, t, hct, hc1, hc2⟩ := natDigits_head n
  rw [hct]
  dsimp only []
  rw [if_neg (by omega), if_neg (by omega), if_pos (by simp [isDigitByte]; omega)]
  have hrd := readDigits_natDigits n [] rfl
  rw [List.append_nil] at hrd
  rw [← hct, hrd]
  rfl

theorem parseIntBytes_clLine (n : Nat) :
    parseIntBytes (afterColon (clLine n)) = some (n : Int) := by
  rw [clLine_eq, afterColon_clHead]
  exact parseIntBytes_num n

theorem clLine_ne_nil (n : Nat) : ¬(clLine n = []) := by
  rw [clLine_eq]
  simp [clHead]

theorem clLine_ne_blank (n : Nat) : ¬(clLine n = [13, 10]) := by
  rw [clLine_eq]
  simp [clHead]

theorem clientReadLoop_cl (cl : Option Int) (f : Nat) (n : Nat) (X : List Nat) :
    clientReadLoop cl (f + 1) (clLine n ++ X) = clientReadLoop (some (n : Int)) f X := by
  rw [clientReadLoop.eq_def]
  dsimp only []
  rw [readLine_clLine n X]
  dsimp only []
  rw [if_neg (clLine_ne_nil n), if_neg (clLine_ne_blank n), if_pos (clLine_is_cl n),
      parseIntBytes_clLine n]

theorem serverReadLoop_cl (cl : Option Int) (f : Nat) (n : Nat) (X : List Nat) :
    serverReadLoop cl (f + 1) (clLine n ++ X) = serverReadLoop (some (n : Int)) f X := by
  rw [serverReadLoop.eq_def]
  dsimp only []
  rw [readLine_clLine n X]
  dsimp only []
  rw [if_neg (clLine_ne_nil n), if_neg (clLine_ne_blank n), if_pos (clLine_is_cl n),
      parseIntBytes_clLine n]

theorem clientReadLoop_blank (v : Int) (f : Nat) (X : List Nat) :
    clientReadLoop (some v) (f + 1) (13 :: 10 :: X) = .ok (v, X) := rfl

theorem serverReadLoop_blank (v : Int) (f : Nat) (X : List Nat) :
    serverReadLoop (some v) (f + 1) (13 :: 10 :: X) = .ok (some (v, X)) := rfl

theorem clientReadLoop_blank_none (f : Nat) (X : List Nat) :
    clientReadLoop none (f + 1) (13 :: 10 :: X) =
      .error "Invalid MCP frame: missing Content-Length" := rfl

theorem serverReadLoop_blank_none (f : Nat) (X : List Nat) :
    serverReadLoop none (f + 1) (13 :: 10 :: X) = .ok none := rfl

theorem clientReadLoop_eof (cl : Option Int) (f : Nat) :
    clientReadLoop cl (f + 1) [] = .error "MCP server closed stdout" := rfl

theorem serverReadLoop_eof (cl : Option Int) (f : Nat) :
    serverReadLoop cl (f + 1) [] = .ok none := rfl

theorem readBytesN_exact (B X : List Nat) :
    readBytesN ((B.length : Nat) : Int) (B ++ X) = (B, X) := by
  unfold readBytesN
  rw [if_neg (by omega)]
  simp

theorem writeFrame_shape (m : Json) (X : List Nat) :
    writeFrame m ++ X = clLine (dumpsVal m).length ++ (13 :: 10 :: (dumpsVal m ++ X)) := by
  simp [writeFrame, headerBytes, clLine]

theorem stream_len_pos (L : Nat) (Y : List Nat) :
    ∃ g, (clLine L ++ Y).length = g + 1 := by
  refine ⟨(clLine L ++ Y).length - 1, ?_⟩
  have : ¬(clLine L = []) := clLine_ne_nil L
  have hlen : 1 ≤ (clLine L).length := by
    cases h : clLine L with
    | nil => exact absurd h this
    | cons a t => simp
  simp [List.length_append]
  omega

theorem clientRead_frame (m : Json) (hwf : m.wf = true) (X : List Nat) :
    clientRead (writeFrame m ++ X) = .ok (m, X) := by
  unfold clientRead
  rw [writeFrame_shape m X]
  rw [clientReadLoop_cl]
  obtain ⟨g, hg⟩ := stream_len_pos (dumpsVal m).length (13 :: 10 :: (dumpsVal m ++ X))
  rw [hg, clientReadLoop_blank]
  dsimp only []
  rw [readBytesN_exact (dumpsVal m) X]
  dsimp only []
  rw [loads_dumps m hwf]

theorem serverReadMessage_frame (m : Json) (hwf : m.wf = true) (X : List Nat) :
    serverReadMessage (writeFrame m ++ X) = .ok (some (m, X)) := by
  unfold serverReadMessage
  rw [writeFrame_shape m X]
  rw [serverReadLoop_cl]
  obtain ⟨g, hg⟩ := stream_len_pos (dumpsVal m).length (13 :: 10 :: (dumpsVal m ++ X))
  rw [hg, serverReadLoop_blank]
  dsimp only []
  rw [readBytesN_exact (dumpsVal m) X]
  dsimp only []
  obtain ⟨c, t, hct, _⟩ := dumpsVal_head m
  rw [if_neg (by rw [hct]; simp)]
  rw [loads_dumps m hwf]

/-! ## Header sections without a usable Content-Length -/

theorem plainHdr_no_nl (A : List Nat) (h : plainHdr A = true) : ∀ b ∈ A, ¬(b = 10) := by
  intro b hb hbeq
  subst hbeq
  simp only [plainHdr, Bool.and_eq_true, Bool.not_eq_true', decide_eq_true_eq] at h
  have := h.1.1
  have hmem : A.contains 10 = true := List.elem_eq_true_of_mem hb
  rw [this] at hmem
  exact Bool.false_ne_true hmem

theorem plainHdr_facts (A : List Nat) (h : plainHdr A = true) :
    ¬(A = [13]) ∧ hasPrefixBytes clPat (lowerBytes (A ++ [10])) = false := by
  simp only [plainHdr, Bool.and_eq_true, Bool.not_eq_true', decide_eq_true_eq] at h
  exact ⟨h.1.2, h.2⟩

theorem clientReadLoop_plain (cl : Option Int) (f : Nat) (A X : List Nat)
    (h : plainHdr A = true) :
    clientReadLoop cl (f + 1) (A ++ (10 :: X)) = clientReadLoop cl f X := by
  obtain ⟨h13, hcl⟩ := plainHdr_facts A h
  rw [clientReadLoop.eq_def]
  dsimp only []
  rw [readLine_append A X (plainHdr_no_nl A h)]
  dsimp only []
  rw [if_neg (by simp), if_neg ?hb, if_neg ?hc]
  case hb =>
    intro he
    exact h13 (by
      have : A ++ [10] = [13] ++ [10] := he
      exact List.append_cancel_right this)
  case hc =>
    rw [hcl]
    exact Bool.false_ne_true

theorem serverReadLoop_plain (cl : Option Int) (f : Nat) (A X : List Nat)
    (h : plainHdr A = true) :
    serverReadLoop cl (f + 1) (A ++ (10 :: X)) = serverReadLoop cl f X := by
  obtain ⟨h13, hcl⟩ := plainHdr_facts A h
  rw [serverReadLoop.eq_def]
  dsimp only []
  rw [readLine_append A X (plainHdr_no_nl A h)]
  dsimp only []
  rw [if_neg (by simp), if_neg ?hb, if_neg ?hc]
  case hb =>
    intro he
    exact h13 (by
      have : A ++ [10] = [13] ++ [10] := he
      exact List.append_cancel_right this)
  case hc =>
    rw [hcl]
    exact Bool.false_ne_true

theorem joinHdr_len (As : List (List Nat)) : As.length ≤ (joinHdr As).length := by
  induction As with
  | nil => simp [joinHdr]
  | cons A As ih =>
    simp only [joinHdr, List.length_cons, List.length_append]
    omega

theorem clientReadLoop_noCL (As : List (List Nat)) :
    ∀ f X, (∀ A ∈ As, plainHdr A = true) → As.length < f →
      clientReadLoop none f (joinHdr As ++ (13 :: 10 :: X)) =
        .error "Invalid MCP frame: missing Content-Length" := by
  induction As with
  | nil =>
    intro f X _ hf
    obtain ⟨g, rfl⟩ : ∃ g, f = g + 1 := ⟨f - 1, by omega⟩
    rw [show joinHdr [] ++ (13 :: 10 :: X) = 13 :: 10 :: X from rfl]
    exact clientReadLoop_blank_none g X
  | cons A As ih =>
    intro f X hplain hf
    obtain ⟨g, rfl⟩ : ∃ g, f = g + 1 := ⟨f - 1, by omega⟩
    rw [show joinHdr (A :: As) ++ (13 :: 10 :: X) =
          A ++ (10 :: (joinHdr As ++ (13 :: 10 :: X))) from by simp [joinHdr]]
    rw [clientReadLoop_plain none g A _ (hplain A (List.mem_cons_self _ _))]
    exact ih g X (fun B hB => hplain B (List.mem_cons_of_mem _ hB)) (by simp at hf; omega)

theorem clientReadLoop_eofHdr (As : List (List Nat)) :
    ∀ cl f, (∀ A ∈ As, plainHdr A = true) → As.length < f →
      clientReadLoop cl f (joinHdr As) = .error "MCP server closed stdout" := by
  induction As with
  | nil =>
    intro cl f _ hf
    obtain ⟨g, rfl⟩ : ∃ g, f = g + 1 := ⟨f - 1, by omega⟩
    exact clientReadLoop_eof cl g
  | cons A As ih =>
    intro cl f hplain hf
    obtain ⟨g, rfl⟩ : ∃ g, f = g + 1 := ⟨f - 1, by omega⟩
    rw [show joinHdr (A :: As) = A ++ (10 :: joinHdr As) from rfl]
    rw [clientReadLoop_plain cl g A _ (hplain A (List.mem_cons_self _ _))]
    exact ih cl g (fun B hB => hplain B (List.mem_cons_of_mem _ hB)) (by simp at hf; omega)

theorem serverReadLoop_noCL (As : List (List Nat)) :
    ∀ f X, (∀ A ∈ As, plainHdr A = true) → As.length < f →
      serverReadLoop none f (joinHdr As ++ (13 :: 10 :: X)) = .ok none := by
  induction As with
  | nil =>
    intro f X _ hf
    obtain ⟨g, rfl⟩ : ∃ g, f = g + 1 := ⟨f - 1, by omega⟩
    exact serverReadLoop_blank_none g X
  | cons A As ih =>
    intro f X hplain hf
    obtain ⟨g, rfl⟩ : ∃ g, f = g + 1 := ⟨f - 1, by omega⟩
    rw [show joinHdr (A :: As) ++ (13 :: 10 :: X) =
          A ++ (10 :: (joinHdr As ++ (13 :: 10 :: X))) from by simp [joinHdr]]
    rw [serverReadLoop_plain none g A _ (hplain A (List.mem_cons_self _ _))]
    exact ih g X (fun B hB => hplain B (List.mem_cons_of_mem _ hB)) (by simp at hf; omega)

theorem serverReadLoop_eofHdr (As : List (List Nat)) :
    ∀ cl f, (∀ A ∈ As, plainHdr A = true) → As.length < f →
      serverReadLoop cl f (joinHdr As) = .ok none := by
  induction As with
  | nil =>
    intro cl f _ hf
    obtain ⟨g, rfl⟩ : ∃ g, f = g + 1 := ⟨f - 1, by omega⟩
    exact serverReadLoop_eof cl g
  | cons A As ih =>
    intro cl f hplain hf
    obtain ⟨g, rfl⟩ : ∃ g, f = g + 1 := ⟨f - 1, by omega⟩
    rw [show joinHdr (A :: As) = A ++ (10 :: joinHdr As) from rfl]
    rw [serverReadLoop_plain cl g A _ (hplain A (List.mem_cons_self _ _))]
    exact ih cl g (fun B hB => hplain B (List.mem_cons_of_mem _ hB)) (by simp at hf; omega)

theorem clientRead_noCL (As : List (List Nat)) (X : List Nat)
    (h : ∀ A ∈ As, plainHdr A = true) :
    clientRead (joinHdr As ++ (13 :: 10 :: X)) =
      .error "Invalid MCP frame: missing Content-Length" := by
  unfold clientRead
  rw [clientReadLoop_noCL As _ X h (by
    have := joinHdr_len As
    simp [List.length_append]
    omega)]

theorem clientRead_eofHdr (As : List (List Nat)) (h : ∀ A ∈ As, plainHdr A = true) :
    clientRead (joinHdr As) = .error "MCP server closed stdout" := by
  unfold clientRead
  rw [clientReadLoop_eofHdr As none _ h (by have := joinHdr_len As; omega)]

theorem serverReadMessage_noCL (As : List (List Nat)) (X : List Nat)
    (h : ∀ A ∈ As, plainHdr A = true) :
    serverReadMessage (joinHdr As ++ (13 :: 10 :: X)) = .ok none := by
  unfold serverReadMessage
  rw [serverReadLoop_noCL As _ X h (by
    have := joinHdr_len As
    simp [List.length_append]
    omega)]

theorem serverReadMessage_eofHdr (As : List (List Nat)) (h : ∀ A ∈ As, plainHdr A = true) :
    serverReadMessage (joinHdr As) = .ok none := by
  unfold serverReadMessage
  rw [serverReadLoop_eofHdr As none _ h (by have := joinHdr_len As; omega)]

theorem serverReadMessage_emptyBody (n : Nat) (body : List Nat)
    (h : n = 0 ∨ body = []) :
    serverReadMessage (clLine n ++ (13 :: 10 :: body)) = .ok none := by
  unfold serverReadMessage
  rw [serverReadLoop_cl]
  obtain ⟨g, hg⟩ := stream_len_pos n (13 :: 10 :: body)
  rw [hg, serverReadLoop_blank]
  dsimp only []
  rw [show readBytesN ((n : Nat) : Int) body = (body.take n, body.drop n) from by
    unfold readBytesN
    rw [if_neg (by omega)]
    simp]
  dsimp only []
  rw [if_pos (by rcases h with h | h <;> simp [h])]

theorem serverLoop_stops (now : String) (fuel : Nat) (s : List Nat)
    (h : serverReadMessage s = .ok none) :
    serverLoop now (fuel + 1) s = ([], .clean) := by
  rw [serverLoop.eq_def]
  dsimp only []
  rw [h]

/-! ## Dispatch lemmas for the server -/

theorem mkPayload_id (n : Nat) (m : String) (p : Option Json) :
    Json.lookup (mkPayload (some n) m p) "id" = some (.num n) := by
  cases p <;> rfl

theorem mkPayload_reqId (n : Nat) (m : String) (p : Option Json) :
    reqId (mkPayload (some n) m p) = some (.num n) := by
  cases p <;> rfl

theorem okResp_id (i r : Json) : Json.lookup (okResp i r) "id" = some i := rfl

theorem errResp_id (i : Json) (c : Int) (msg : String) :
    Json.lookup (errResp i c msg) "id" = some i := rfl

theorem argOrEmpty_obj (pkvs : List (String × Json)) :
    argOrEmpty (.obj pkvs) =
      .ok (if pyTruthy ((lookupPairs pkvs "arguments").getD (.obj [])) then
             (lookupPairs pkvs "arguments").getD (.obj [])
           else .obj []) := rfl

theorem argOrEmpty_absent (pkvs : List (String × Json))
    (h : lookupPairs pkvs "arguments" = none) : argOrEmpty (.obj pkvs) = .ok (.obj []) := by
  rw [argOrEmpty_obj, h]
  rfl

theorem argOrEmpty_null (pkvs : List (String × Json))
    (h : lookupPairs pkvs "arguments" = some .null) :
    argOrEmpty (.obj pkvs) = .ok (.obj []) := by
  rw [argOrEmpty_obj, h]
  rfl

theorem toolCall_unknown (now : String) (s : String) (args : Json)
    (h : toolNames.contains s = false) :
    toolCall now (.str s) args = .error ("Unknown tool: " ++ s) := by
  have hs : ¬(s = "diagnostics") ∧ ¬(s = "navigation") ∧ ¬(s = "weather") ∧
      ¬(s = "maintenance") ∧ ¬(s = "emergency") ∧ ¬(s = "knowledge") ∧
      ¬(s = "vehicle_info") := by
    simp only [toolNames, TOOLS, List.map_cons, List.map_nil, List.contains_cons,
      Bool.or_eq_false_iff, beq_eq_false_iff_ne, ne_eq] at h
    tauto
  obtain ⟨h1, h2, h3, h4, h5, h6, h7⟩ := hs
  rw [toolCall]
  rw [if_neg h1, if_neg h2, if_neg h3, if_neg h4, if_neg h5, if_neg h6, if_neg h7]

theorem serverStep_obj (now : String) (kvs : List (String × Json)) :
    serverStep now (.obj kvs) =
      (let method := lookupPairs kvs "method"
       let rid : Option Json := reqId (.obj kvs)
       if methodIs method "initialize" then
         .ok (match rid with
              | none => []
              | some i => [okResp i initResultJson])
       else if methodIs method "notifications/initialized" then .ok []
       else if methodIs method "tools/list" then
         .ok (match rid with
              | none => []
              | some i => [okResp i toolsListJson])
       else if methodIs method "tools/call" then
         let params := (lookupPairs kvs "params").getD (.obj [])
         let callRes : Except String Json := do
           let name ← pyGetD params "name" (.str "")
           let args ← argOrEmpty params
           toolCall now name args
         match callRes with
         | .ok result =>
           .ok (match rid with
                | none => []
                | some i => [okResp i result])
         | .error e =>
           .ok (match rid with
                | none => []
                | some i => [errResp i (-32000) e])
       else
         .ok (match rid with
              | none => []
              | some i => [errResp i (-32601) ("Method not found: " ++ pyStrOpt method)])) := rfl

theorem methodIs_str (m s : String) : methodIs (some (.str m)) s = decide (m = s) := rfl

theorem serverStep_unknown_tool (now : String) (kvs pkvs : List (String × Json))
    (idv : Json) (nm : String)
    (hmethod : lookupPairs kvs "method" = some (.str "tools/call"))
    (hid : reqId (.obj kvs) = some idv)
    (hparams : lookupPairs kvs "params" = some (.obj pkvs))
    (hname : lookupPairs pkvs "name" = some (.str nm))
    (hunk : toolNames.contains nm = false) :
    serverStep now (.obj kvs) = .ok [errResp idv (-32000) ("Unknown tool: " ++ nm)] := by
  rw [serverStep_obj]
  dsimp only []
  rw [hmethod, hid, hparams]
  rw [methodIs_str, methodIs_str, methodIs_str, methodIs_str]
  rw [if_neg (by decide), if_neg (by decide), if_neg (by decide), if_pos (by decide)]
  dsimp only [Option.getD]
  have hcall : (do
      let name ← pyGetD (.obj pkvs) "name" (.str "")
      let args ← argOrEmpty (.obj pkvs)
      toolCall now name args : Except String Json) =
      .error ("Unknown tool: " ++ nm) := by
    rw [show pyGetD (.obj pkvs) "name" (.str "") = .ok (.str nm) from by
      simp [pyGetD, hname]]
    rw [show (argOrEmpty (Json.obj pkvs)) =
          .ok (if pyTruthy ((lookupPairs pkvs "arguments").getD (.obj [])) then
                 (lookupPairs pkvs "arguments").getD (.obj [])
               else .obj []) from argOrEmpty_obj pkvs]
    dsimp only [bind, Except.bind]
    exact toolCall_unknown now nm _ hunk
  rw [hcall]

theorem serverStep_unknown_method (now : String) (kvs : List (String × Json))
    (m : String) (idv : Json)
    (hmethod : lookupPairs kvs "method" = some (.str m))
    (hid : reqId (.obj kvs) = some idv)
    (h1 : ¬(m = "initialize")) (h2 : ¬(m = "notifications/initialized"))
    (h3 : ¬(m = "tools/list")) (h4 : ¬(m = "tools/call")) :
    serverStep now (.obj kvs) = .ok [errResp idv (-32601) ("Method not found: " ++ m)] := by
  rw [serverStep_obj]
  dsimp only []
  rw [hmethod, hid]
  rw [methodIs_str, methodIs_str, methodIs_str, methodIs_str]
  rw [if_neg (by simpa using h1), if_neg (by simpa using h2), if_neg (by simpa using h3),
      if_neg (by simpa using h4)]
  rfl

theorem serverStep_no_id (now : String) (req : Json) (h : reqId req = none) :
    stepOuts (serverStep now req) = [] := by
  cases req with
  | obj kvs =>
    rw [serverStep_obj]
    dsimp only []
    rw [h]
    split_ifs
    · rfl
    · rfl
    · rfl
    · cases hc : (do
        let name ← pyGetD ((lookupPairs kvs "params").getD (.obj [])) "name" (.str "")
        let args ← argOrEmpty ((lookupPairs kvs "params").getD (.obj []))
        toolCall now name args : Except String Json) with
      | ok v => rfl
      | error e => rfl
    · rfl
  | null => rfl
  | bool b => rfl
  | num n => rfl
  | str s => rfl
  | arr xs => rfl


theorem mkPayload_method (n : Nat) (m : String) (p : Option Json) :
    Json.lookup (mkPayload (some n) m p) "method" = some (.str m) := by
  cases p <;> rfl

theorem stepOuts_ok (l : List Json) : stepOuts (.ok l) = l := rfl

theorem serverStep_responds (now : String) (i : Nat) (m : String) (p : Option Json)
    (hm : ¬(m = "notifications/initialized")) :
    ∃ r, serverStep now (mkPayload (some i) m p) = .ok [r] ∧
      Json.lookup r "id" = some (.num i) := by
  have hkvs : ∃ kvs, mkPayload (some i) m p = .obj kvs ∧
      lookupPairs kvs "method" = some (.str m) ∧ reqId (.obj kvs) = some (.num i) := by
    cases p with
    | none => exact ⟨_, rfl, rfl, rfl⟩
    | some ps => exact ⟨_, rfl, rfl, rfl⟩
  obtain ⟨kvs, hpay, hmethod, hid⟩ := hkvs
  rw [hpay, serverStep_obj]
  dsimp only []
  rw [hmethod, hid]
  rw [methodIs_str, methodIs_str, methodIs_str, methodIs_str]
  by_cases hm1 : m = "initialize"
  · rw [if_pos (by simpa using hm1)]
    exact ⟨_, rfl, okResp_id _ _⟩
  · rw [if_neg (by simpa using hm1), if_neg (by simpa using hm)]
    by_cases hm3 : m = "tools/list"
    · rw [if_pos (by simpa using hm3)]
      exact ⟨_, rfl, okResp_id _ _⟩
    · rw [if_neg (by simpa using hm3)]
      by_cases hm4 : m = "tools/call"
      · rw [if_pos (by simpa using hm4)]
        cases hcall : (do
            let name ← pyGetD ((lookupPairs kvs "params").getD (.obj [])) "name" (.str "")
            let args ← argOrEmpty ((lookupPairs kvs "params").getD (.obj []))
            toolCall now name args : Except String Json) with
        | ok v => exact ⟨okResp (.num i) v, rfl, okResp_id _ _⟩
        | error e => exact ⟨errResp (.num i) (-32000) e, rfl, errResp_id _ _ _⟩
      · rw [if_neg (by simpa using hm4)]
        exact ⟨_, rfl, errResp_id _ _ _⟩

/-! ## Session lemmas: id assignment and response pairing -/

theorem sessionPairs_cons_req (now : String) (start : Nat) (m : String) (p : Option Json)
    (rest : List COp) :
    sessionPairs now start (COp.creq m p :: rest) =
      (mkPayload (some start) m p,
        (stepOuts (serverStep now (mkPayload (some start) m p))).head?) ::
        sessionPairs now (start + 1) rest := by
  simp [sessionPairs, runOps]

theorem sessionPairs_cons_note (now : String) (start : Nat) (m : String) (p : Option Json)
    (rest : List COp) :
    sessionPairs now start (COp.cnote m p :: rest) = sessionPairs now start rest := by
  simp [sessionPairs, runOps]

theorem sessionPairs_len (now : String) (ops : List COp) :
    ∀ start, (sessionPairs now start ops).length = countReqs ops := by
  induction ops with
  | nil => intro start; rfl
  | cons op rest ih =>
    intro start
    cases op with
    | creq m p =>
      rw [sessionPairs_cons_req]
      simp [countReqs, ih]
    | cnote m p =>
      rw [sessionPairs_cons_note]
      simp [countReqs, ih]

theorem sessionPairs_req_ids (now : String) (ops : List COp) :
    ∀ (start i : Nat) (pr : Json × Option Json), (sessionPairs now start ops)[i]? = some pr →
      pr.1.lookup "id" = some (.num ((start + i : Nat) : Int)) := by
  induction ops with
  | nil =>
    intro start i pr h
    simp [sessionPairs, runOps] at h
  | cons op rest ih =>
    intro start i pr h
    cases op with
    | creq m p =>
      rw [sessionPairs_cons_req] at h
      cases i with
      | zero =>
        rw [List.getElem?_cons_zero] at h
        injection h with h
        subst h
        simpa using mkPayload_id start m p
      | succ j =>
        rw [List.getElem?_cons_succ] at h
        have hthis := ih (start + 1) j pr h
        have harith : start + 1 + j = start + (j + 1) := by omega
        rw [harith] at hthis
        exact hthis
    | cnote m p =>
      rw [sessionPairs_cons_note] at h
      exact ih start i pr h

theorem sessionPairs_resp_ids (now : String) (ops : List COp) :
    ∀ (start i : Nat) (pr : Json × Option Json), (sessionPairs now start ops)[i]? = some pr →
      (∀ op ∈ ops, opOk op = true) →
      ∃ r, pr.2 = some r ∧ r.lookup "id" = some (.num ((start + i : Nat) : Int)) := by
  induction ops with
  | nil =>
    intro start i pr h _
    simp [sessionPairs, runOps] at h
  | cons op rest ih =>
    intro start i pr h hok
    cases op with
    | creq m p =>
      rw [sessionPairs_cons_req] at h
      cases i with
      | zero =>
        rw [List.getElem?_cons_zero] at h
        injection h with h
        subst h
        have hm : ¬(m = "notifications/initialized") := by
          have hh := hok (COp.creq m p) (List.mem_cons_self _ _)
          simpa [opOk] using hh
        obtain ⟨r, hstep, hrid⟩ := serverStep_responds now start m p hm
        refine ⟨r, ?_, by simpa using hrid⟩
        show (stepOuts (serverStep now (mkPayload (some start) m p))).head? = some r
        rw [hstep]
        rfl
      | succ j =>
        rw [List.getElem?_cons_succ] at h
        obtain ⟨r, hr, hrid⟩ := ih (start + 1) j pr h
          (fun op hop => hok op (List.mem_cons_of_mem _ hop))
        refine ⟨r, hr, ?_⟩
        have harith : start + 1 + j = start + (j + 1) := by omega
        rw [harith] at hrid
        exact hrid
    | cnote m p =>
      rw [sessionPairs_cons_note] at h
      exact ih start i pr h (fun op hop => hok op (List.mem_cons_of_mem _ hop))

/-! ## Tool-calling loop lemmas -/

theorem flowLoop_iters (now : String) (oracle : List Json → Json) :
    ∀ fuel msgs nid, (flowLoop now oracle msgs nid fuel).2 ≤ fuel := by
  intro fuel
  induction fuel with
  | zero => intro msgs nid; exact Nat.le_refl 0
  | succ f ih =>
    intro msgs nid
    rw [flowLoop.eq_def]
    dsimp only []
    cases hg : pyGetD (oracle msgs) "tool_calls" (.arr []) with
    | error e => dsimp only []; omega
    | ok tcsJ =>
      dsimp only []
      by_cases ht : pyTruthy tcsJ = false
      · rw [if_pos ht]
        cases hc : pyGetD (oracle msgs) "content" (.str "") with
        | error e => dsimp only []; omega
        | ok c => dsimp only []; omega
      · rw [if_neg ht]
        cases tcsJ with
        | arr tcs =>
          dsimp only []
          cases hd : doCalls now nid (msgs ++ [oracle msgs]) tcs with
          | error e => dsimp only []; omega
          | ok pr =>
            obtain ⟨msgs3, nid2⟩ := pr
            dsimp only []
            have hle := ih msgs3 nid2
            omega
        | null => dsimp only []; omega
        | bool b => dsimp only []; omega
        | num n => dsimp only []; omega
        | str s => dsimp only []; omega
        | obj kvs => dsimp only []; omega

theorem flowLoop_sentinel (now : String) (oracle : List Json → Json)
    (h : ∀ ms t, pyGetD (oracle ms) "tool_calls" (.arr []) = .ok t → pyTruthy t = true) :
    ∀ fuel msgs nid v, (flowLoop now oracle msgs nid fuel).1 = .ok v →
      v = .str sentinelText := by
  intro fuel
  induction fuel with
  | zero =>
    intro msgs nid v hv
    simp only [flowLoop] at hv
    injection hv with hv
    exact hv.symm
  | succ f ih =>
    intro msgs nid v hv
    rw [flowLoop.eq_def] at hv
    dsimp only [] at hv
    revert hv
    cases hg : pyGetD (oracle msgs) "tool_calls" (.arr []) with
    | error e =>
      intro hv
      exact absurd hv (by simp)
    | ok tcsJ =>
      dsimp only []
      rw [if_neg (by simp [h msgs tcsJ hg])]
      cases tcsJ with
      | arr tcs =>
        dsimp only []
        cases hd : doCalls now nid (msgs ++ [oracle msgs]) tcs with
        | error e =>
          intro hv
          exact absurd hv (by simp)
        | ok pr =>
          obtain ⟨msgs3, nid2⟩ := pr
          dsimp only []
          intro hv
          exact ih msgs3 nid2 v hv
      | null => intro hv; exact absurd hv (by simp)
      | bool b => intro hv; exact absurd hv (by simp)
      | num n => intro hv; exact absurd hv (by simp)
      | str s => intro hv; exact absurd hv (by simp)
      | obj kvs => intro hv; exact absurd hv (by simp)

theorem serverStep_obj_ok (now : String) (kvs : List (String × Json)) :
    ∃ outs, serverStep now (.obj kvs) = .ok outs := by
  rw [serverStep_obj]
  dsimp only []
  split_ifs
  · exact ⟨_, rfl⟩
  · exact ⟨_, rfl⟩
  · exact ⟨_, rfl⟩
  · cases hc : (do
        let name ← pyGetD ((lookupPairs kvs "params").getD (.obj [])) "name" (.str "")
        let args ← argOrEmpty ((lookupPairs kvs "params").getD (.obj []))
        toolCall now name args : Except String Json) with
    | ok v => exact ⟨_, rfl⟩
    | error e => exact ⟨_, rfl⟩
  · exact ⟨_, rfl⟩

/-! ## The claims -/

/-- C1: writing any well-formed JSON value as a Content-Length framed byte
stream and then reading one frame back — on the client's reader or on the
server's — reconstructs the value exactly and leaves the rest of the stream
untouched.  Well-formed (`Json.wf`) means every object has distinct keys,
which holds of every value serialized from a Python dict. -/
theorem c1_frame_roundtrip (m : Json) (hwf : m.wf = true) (X : List Nat) :
    clientRead (writeFrame m ++ X) = .ok (m, X) ∧
    serverReadMessage (writeFrame m ++ X) = .ok (some (m, X)) :=
  ⟨clientRead_frame m hwf X, serverReadMessage_frame m hwf X⟩

theorem c1_frame_roundtrip_witness :
    demoMsg.wf = true ∧
    (clientRead (writeFrame demoMsg ++ [99]) = .ok (demoMsg, [99]) ∧
     serverReadMessage (writeFrame demoMsg ++ [99]) = .ok (some (demoMsg, [99]))) :=
  ⟨by decide, c1_frame_roundtrip demoMsg (by decide) [99]⟩

/-- C2: over a session of sequential client operations against the server, the
number of request/response pairs equals the number of `request()` calls, and
the i-th pair (zero-based, ids allocated from `start`) has request id
`start + i` and a response present whose id equals that same value — so
responses arrive in request order and each matches its request's id. -/
theorem c2_session_ids (now : String) (ops : List COp) (start : Nat)
    (hok : ∀ op ∈ ops, opOk op = true) :
    (sessionPairs now start ops).length = countReqs ops ∧
    ∀ (i : Nat) (pr : Json × Option Json), (sessionPairs now start ops)[i]? = some pr →
      pr.1.lookup "id" = some (.num ((start + i : Nat) : Int)) ∧
      ∃ r, pr.2 = some r ∧ r.lookup "id" = some (.num ((start + i : Nat) : Int)) :=
  ⟨sessionPairs_len now ops start,
   fun i pr h =>
     ⟨sessionPairs_req_ids now ops start i pr h,
      sessionPairs_resp_ids now ops start i pr h hok⟩⟩

theorem c2_session_ids_witness :
    (∀ op ∈ demoOps, opOk op = true) ∧
    ((sessionPairs "T" 1 demoOps).length = countReqs demoOps ∧
     ∀ (i : Nat) (pr : Json × Option Json), (sessionPairs "T" 1 demoOps)[i]? = some pr →
       pr.1.lookup "id" = some (.num ((1 + i : Nat) : Int)) ∧
       ∃ r, pr.2 = some r ∧ r.lookup "id" = some (.num ((1 + i : Nat) : Int))) :=
  ⟨by decide, c2_session_ids "T" demoOps 1 (by decide)⟩

/-- C3 counterexample: a stream whose header section ends with no
Content-Length line makes the server's reader return the no-message outcome
`Except.ok none` instead of an error, and a stream that ends mid-header makes
the client's reader fail with the connection-closed message rather than a
protocol error — so the claimed ProtocolError behavior does not hold. -/
theorem c3_cex_silent_or_closed :
    serverReadMessage [88, 58, 32, 49, 13, 10, 13, 10, 97] = .ok none ∧
    clientRead [88, 58, 32, 49, 13, 10] = .error "MCP server closed stdout" :=
  ⟨rfl, rfl⟩

/-- C3 (amended): with only plain header lines and no Content-Length, the
client's reader fails with the missing-Content-Length error once the blank
line is reached and with the connection-closed error when the stream ends
mid-header, while the server's reader returns the no-message outcome `none`
in both cases and never an error. -/
theorem c3_reader_outcomes (As : List (List Nat)) (X : List Nat)
    (h : ∀ A ∈ As, plainHdr A = true) :
    clientRead (joinHdr As ++ (13 :: 10 :: X)) =
      .error "Invalid MCP frame: missing Content-Length" ∧
    clientRead (joinHdr As) = .error "MCP server closed stdout" ∧
    serverReadMessage (joinHdr As ++ (13 :: 10 :: X)) = .ok none ∧
    serverReadMessage (joinHdr As) = .ok none :=
  ⟨clientRead_noCL As X h, clientRead_eofHdr As h,
   serverReadMessage_noCL As X h, serverReadMessage_eofHdr As h⟩

theorem c3_reader_outcomes_witness :
    (∀ A ∈ [[88, 58, 32, 49]], plainHdr A = true) ∧
    (clientRead (joinHdr [[88, 58, 32, 49]] ++ (13 :: 10 :: [97])) =
       .error "Invalid MCP frame: missing Content-Length" ∧
     clientRead (joinHdr [[88, 58, 32, 49]]) = .error "MCP server closed stdout" ∧
     serverReadMessage (joinHdr [[88, 58, 32, 49]] ++ (13 :: 10 :: [97])) = .ok none ∧
     serverReadMessage (joinHdr [[88, 58, 32, 49]]) = .ok none) :=
  ⟨by decide, c3_reader_outcomes [[88, 58, 32, 49]] [97] (by decide)⟩

/-- C4: a `tools/call` request carrying an id and an unregistered tool name is
answered with an error response of code -32000 and message "Unknown tool:
<name>"; any failure of the dispatched handler likewise becomes a code -32000
error response; and on any well-formed frame the server loop sends the step's
responses and keeps reading the rest of the stream instead of crashing. -/
theorem c4_tool_errors (now : String) (kvs pkvs : List (String × Json)) (idv : Json)
    (nm : String)
    (hmethod : lookupPairs kvs "method" = some (.str "tools/call"))
    (hid : reqId (.obj kvs) = some idv)
    (hparams : lookupPairs kvs "params" = some (.obj pkvs))
    (hname : lookupPairs pkvs "name" = some (.str nm)) :
    (toolNames.contains nm = false →
      serverStep now (.obj kvs) = .ok [errResp idv (-32000) ("Unknown tool: " ++ nm)]) ∧
    (∀ e : String,
      toolCall now (.str nm)
        (if pyTruthy ((lookupPairs pkvs "arguments").getD (.obj [])) then
           (lookupPairs pkvs "arguments").getD (.obj [])
         else .obj []) = .error e →
      serverStep now (.obj kvs) = .ok [errResp idv (-32000) e]) ∧
    (∀ (fuel : Nat) (rest : List Nat), (Json.obj kvs).wf = true →
      serverLoop now (fuel + 1) (writeFrame (.obj kvs) ++ rest) =
        (sendAll (stepOuts (serverStep now (.obj kvs))) ++ (serverLoop now fuel rest).1,
         (serverLoop now fuel rest).2)) := by
  refine ⟨fun hunk =>
    serverStep_unknown_tool now kvs pkvs idv nm hmethod hid hparams hname hunk, ?_, ?_⟩
  · intro e htc
    rw [serverStep_obj]
    dsimp only []
    rw [hmethod, hid, hparams]
    rw [methodIs_str, methodIs_str, methodIs_str, methodIs_str]
    rw [if_neg (by decide), if_neg (by decide), if_neg (by decide), if_pos (by decide)]
    dsimp only [Option.getD]
    have hcall : (do
        let name ← pyGetD (.obj pkvs) "name" (.str "")
        let args ← argOrEmpty (.obj pkvs)
        toolCall now name args : Except String Json) = .error e := by
      rw [show pyGetD (.obj pkvs) "name" (.str "") = .ok (.str nm) from by
        simp [pyGetD, hname]]
      rw [show (argOrEmpty (Json.obj pkvs)) =
            .ok (if pyTruthy ((lookupPairs pkvs "arguments").getD (.obj [])) then
                   (lookupPairs pkvs "arguments").getD (.obj [])
                 else .obj []) from argOrEmpty_obj pkvs]
      dsimp only [bind, Except.bind]
      exact htc
    rw [hcall]
  · intro fuel rest hwf
    obtain ⟨outs, houts⟩ := serverStep_obj_ok now kvs
    rw [serverLoop.eq_def]
    dsimp only []
    rw [serverReadMessage_frame (.obj kvs) hwf rest]
    dsimp only []
    rw [houts]
    dsimp only [stepOuts]

theorem c4_tool_errors_witness :
    (toolNames.contains "frobnicate" = false →
      serverStep "T" (.obj unkReq) =
        .ok [errResp (.num 3) (-32000) ("Unknown tool: " ++ "frobnicate")]) ∧
    (∀ e : String,
      toolCall "T" (.str "frobnicate")
        (if pyTruthy ((lookupPairs [("name", Json.str "frobnicate")] "arguments").getD
             (.obj [])) then
           (lookupPairs [("name", Json.str "frobnicate")] "arguments").getD (.obj [])
         else .obj []) = .error e →
      serverStep "T" (.obj unkReq) = .ok [errResp (.num 3) (-32000) e]) ∧
    (∀ (fuel : Nat) (rest : List Nat), (Json.obj unkReq).wf = true →
      serverLoop "T" (fuel + 1) (writeFrame (.obj unkReq) ++ rest) =
        (sendAll (stepOuts (serverStep "T" (.obj unkReq))) ++ (serverLoop "T" fuel rest).1,
         (serverLoop "T" fuel rest).2)) :=
  c4_tool_errors "T" unkReq [("name", .str "frobnicate")] (.num 3) "frobnicate"
    rfl rfl rfl rfl

/-- C5: a request carrying an id whose method is none of the four dispatched
methods is answered with an error response of code -32601 and message
"Method not found: <method>", while a frame carrying no id (or a null one)
produces no response frame at all. -/
theorem c5_unknown_method_no_id (now : String) (kvs : List (String × Json))
    (m : String) (idv : Json)
    (hmethod : lookupPairs kvs "method" = some (.str m))
    (hid : reqId (.obj kvs) = some idv)
    (h1 : ¬(m = "initialize")) (h2 : ¬(m = "notifications/initialized"))
    (h3 : ¬(m = "tools/list")) (h4 : ¬(m = "tools/call")) :
    serverStep now (.obj kvs) = .ok [errResp idv (-32601) ("Method not found: " ++ m)] ∧
    ∀ req : Json, reqId req = none → stepOuts (serverStep now req) = [] :=
  ⟨serverStep_unknown_method now kvs m idv hmethod hid h1 h2 h3 h4,
   fun req hreq => serverStep_no_id now req hreq⟩

theorem c5_unknown_method_no_id_witness :
    (serverStep "T" (.obj [("jsonrpc", .str "2.0"), ("id", .num 9),
        ("method", .str "resources/list")]) =
      .ok [errResp (.num 9) (-32601) ("Method not found: " ++ "resources/list")]) ∧
    (∀ req : Json, reqId req = none → stepOuts (serverStep "T" req) = []) :=
  c5_unknown_method_no_id "T"
    [("jsonrpc", .str "2.0"), ("id", .num 9), ("method", .str "resources/list")]
    "resources/list" (.num 9) rfl rfl
    (by decide) (by decide) (by decide) (by decide)

/-- C6 counterexample: a model that always answers with a tool call whose
`arguments` string is not valid JSON aborts the run with the JSON decode
exception on its first iteration, instead of ever returning the sentinel —
so "returns the sentinel rather than failing" does not hold for every model
behavior. -/
theorem c6_cex_bad_arguments :
    (flowLoop "T" (fun _ => badToolMsg) [] 3 8).1 =
      .error "json.JSONDecodeError: Expecting value" ∧
    (flowLoop "T" (fun _ => badToolMsg) [] 3 8).2 = 1 :=
  ⟨rfl, rfl⟩

/-- C6 (amended): the tool-calling loop executes at most 8 iterations for
every model behavior; and when every model message carries a non-empty
`tool_calls` list, a run that completes without an exception returns exactly
the sentinel string. -/
theorem c6_loop_cap (now : String) (oracle : List Json → Json) (msgs : List Json)
    (nid : Nat) :
    (flowLoop now oracle msgs nid 8).2 ≤ 8 ∧
    ((∀ ms t, pyGetD (oracle ms) "tool_calls" (.arr []) = .ok t → pyTruthy t = true) →
      ∀ v, (flowLoop now oracle msgs nid 8).1 = .ok v → v = .str sentinelText) :=
  ⟨flowLoop_iters now oracle 8 msgs nid,
   fun h v hv => flowLoop_sentinel now oracle h 8 msgs nid v hv⟩

/-- C7: with ids allocated from 1, the i-th request/response pair's request
carries id 1 + i, so the k-th `request()` call of a connection sends id k;
a `request()` operation consumes exactly one id from the counter and a
`notify()` operation consumes none. -/
theorem c7_request_id_counter (now : String) (ops : List COp) :
    (∀ (i : Nat) (pr : Json × Option Json), (sessionPairs now 1 ops)[i]? = some pr →
      pr.1.lookup "id" = some (.num ((1 + i : Nat) : Int))) ∧
    (∀ (nid : Nat) (m : String) (p : Option Json) (rest : List COp),
      runOps now nid (COp.creq m p :: rest) =
        some (mkPayload (some nid) m p,
          (stepOuts (serverStep now (mkPayload (some nid) m p))).head?) ::
          runOps now (nid + 1) rest) ∧
    (∀ (nid : Nat) (m : String) (p : Option Json) (rest : List COp),
      runOps now nid (COp.cnote m p :: rest) = none :: runOps now nid rest) :=
  ⟨fun i pr h => sessionPairs_req_ids now ops 1 i pr h,
   fun _ _ _ _ => rfl, fun _ _ _ _ => rfl⟩

/-- C8: a `tools/call` request whose params carry no `arguments` key, or a
null one, invokes the matched handler with the empty object, so the response
is exactly the handler's result on `Json.obj []`; moreover every registered
handler succeeds on the empty object, its documented defaults applying. -/
theorem c8_default_arguments (now : String) (kvs pkvs : List (String × Json))
    (idv : Json) (nm : String)
    (hmethod : lookupPairs kvs "method" = some (.str "tools/call"))
    (hid : reqId (.obj kvs) = some idv)
    (hparams : lookupPairs kvs "params" = some (.obj pkvs))
    (hname : lookupPairs pkvs "name" = some (.str nm))
    (hargs : lookupPairs pkvs "arguments" = none ∨
             lookupPairs pkvs "arguments" = some .null) :
    serverStep now (.obj kvs) =
      (match toolCall now (.str nm) (.obj []) with
       | .ok r => .ok [okResp idv r]
       | .error e => .ok [errResp idv (-32000) e]) ∧
    (∀ t ∈ toolNames, ∃ r, toolCall now (.str t) (.obj []) = .ok r) := by
  constructor
  · rw [serverStep_obj]
    dsimp only []
    rw [hmethod, hid, hparams]
    rw [methodIs_str, methodIs_str, methodIs_str, methodIs_str]
    rw [if_neg (by decide), if_neg (by decide), if_neg (by decide), if_pos (by decide)]
    dsimp only [Option.getD]
    have hargsE : argOrEmpty (.obj pkvs) = .ok (.obj []) := by
      rcases hargs with h | h
      · exact argOrEmpty_absent pkvs h
      · exact argOrEmpty_null pkvs h
    rw [show pyGetD (.obj pkvs) "name" (.str "") = .ok (.str nm) from by
      simp [pyGetD, hname]]
    rw [hargsE]
    dsimp only [bind, Except.bind]
  · intro t ht
    simp only [toolNames, TOOLS, List.map_cons, List.map_nil, List.mem_cons,
      List.not_mem_nil, or_false] at ht
    rcases ht with h | h | h | h | h | h | h <;> subst h <;> exact ⟨_, rfl⟩

theorem c8_default_arguments_witness :
    (lookupPairs [("name", Json.str "maintenance")] "arguments" = none ∨
     lookupPairs [("name", Json.str "maintenance")] "arguments" = some .null) ∧
    (serverStep "T" (.obj defReq) =
      (match toolCall "T" (.str "maintenance") (.obj []) with
       | .ok r => .ok [okResp (.num 4) r]
       | .error e => .ok [errResp (.num 4) (-32000) e]) ∧
     (∀ t ∈ toolNames, ∃ r, toolCall "T" (.str t) (.obj []) = .ok r)) :=
  ⟨Or.inl rfl,
   c8_default_arguments "T" defReq [("name", .str "maintenance")] (.num 4) "maintenance"
     rfl rfl rfl rfl (Or.inl rfl)⟩

/-- C9: calling the `maintenance` tool with current_mileage 45000 answers with
the wrapped handler result whose `overdue_items` list is non-empty (brake
fluid and air filter) and whose `recommended_window_days` is 7. -/
theorem c9_maintenance_45000 : ∀ now : String,
    ∃ r items,
      svcMaintenance (.num 45000) = .ok r ∧
      toolCall now (.str "maintenance")
        (.obj [("current_mileage", .num 45000)]) = .ok (wrapResult r) ∧
      r.lookup "overdue_items" = some (.arr items) ∧
      ¬(items = []) ∧
      r.lookup "recommended_window_days" = some (.num 7) := by
  intro now
  refine ⟨_, [.str "brake fluid", .str "air filter"], rfl, rfl, rfl, ?_, rfl⟩
  simp

/-- C10: the server's frame reader returns the no-message outcome `none` in
all three malformed cases — the stream ends before the blank line, the header
section ends without a Content-Length line, and reading the body yields zero
bytes (a declared Content-Length of 0 included) — and on that outcome the
server loop stops cleanly without sending anything. -/
theorem c10_silent_none (As : List (List Nat)) (X : List Nat) (n : Nat)
    (body : List Nat)
    (h : ∀ A ∈ As, plainHdr A = true) (hb : n = 0 ∨ body = []) :
    serverReadMessage (joinHdr As) = .ok none ∧
    serverReadMessage (joinHdr As ++ (13 :: 10 :: X)) = .ok none ∧
    serverReadMessage (clLine n ++ (13 :: 10 :: body)) = .ok none ∧
    (∀ now fuel s, serverReadMessage s = .ok none →
      serverLoop now (fuel + 1) s = ([], LoopExit.clean)) :=
  ⟨serverReadMessage_eofHdr As h, serverReadMessage_noCL As X h,
   serverReadMessage_emptyBody n body hb,
   fun now fuel s hs => serverLoop_stops now fuel s hs⟩

theorem c10_silent_none_witness :
    ((∀ A ∈ [[88, 58, 32, 49]], plainHdr A = true) ∧
     ((0 : Nat) = 0 ∨ ([97] : List Nat) = [])) ∧
    (serverReadMessage (joinHdr [[88, 58, 32, 49]]) = .ok none ∧
     serverReadMessage (joinHdr [[88, 58, 32, 49]] ++ (13 :: 10 :: [99])) = .ok none ∧
     serverReadMessage (clLine 0 ++ (13 :: 10 :: [97])) = .ok none ∧
     (∀ now fuel s, serverReadMessage s = .ok none →
       serverLoop now (fuel + 1) s = ([], LoopExit.clean))) :=
  ⟨⟨by decide, Or.inl rfl⟩,
   c10_silent_none [[88, 58, 32, 49]] [99] 0 [97] (by decide) (Or.inl rfl)⟩
